import Mathlib

/-!
# Verification of the radar point-layout engine

Shallow embedding, over exact rationals, of the deterministic point-layout
code of the `radar_agent` repository:

* `src/unnamed/part_000`, first document: `generateSeed`, `seededRandom`,
  `calculateOptimizedPosition`, `calculateTechnologyPositions` (namespace `V1`);
* `src/unnamed/part_000`, second document: the spiral / force-directed variant
  `calculateTechnologyPositions`, `generateGridPositions`,
  `findForceBasedPosition`, `findEmergencyPosition` (namespace `Spiral`);
* `src/frontend/src/radar/radar V8.tsx`: `calculatePosition` and
  `processedData` (namespace `V8`);
* `src/frontend/src/radar/tech-radar.tsx`: `calculatePosition` and
  `processedData` (namespace `TR`).

Conventions of the embedding:

* JS numbers are embedded as `ℚ`; decimal literals denote the exact decimal
  value, and `Math.PI` is embedded as the exact rational value of its IEEE-754
  double (`piQ`).
* The transcendental functions `Math.sin`, `Math.cos`, `Math.sqrt`,
  `Math.atan2` are not rational-valued; they enter the embedding as an explicit
  parameter bundle `MathOps`, so every statement quantifies over their
  interpretation, with hypotheses recording the facts about real trigonometry a
  particular theorem needs (for instance `|sin| ≤ 1`).
* Where the source uses `Math.sqrt` only inside comparisons of non-negative
  quantities (collision thresholds, best-candidate tracking), the embedding
  compares squared distances instead, which is order-isomorphic and stays in
  `ℚ`.  Where the source feeds `Math.sqrt` into further arithmetic (force
  relaxation), the abstract `MathOps.sqrt` is used.
-/

namespace Radar

/-- Abstract interpretation of the JS `Math` transcendental functions used by
the layout code.  `atan2 y x` follows the JS argument order. -/
structure MathOps where
  sin : ℚ → ℚ
  cos : ℚ → ℚ
  sqrt : ℚ → ℚ
  atan2 : ℚ → ℚ → ℚ

/-- The exact rational value of the IEEE-754 double `Math.PI`. -/
def piQ : ℚ := 884279719003555 / 281474976710656

/-- A 2D point. -/
structure Point where
  x : ℚ
  y : ℚ
deriving DecidableEq

/-- Squared Euclidean distance.  The source compares `Math.sqrt` distances with
thresholds and with each other; all those comparisons are embedded squared. -/
def distSq (p q : Point) : ℚ := (p.x - q.x) ^ 2 + (p.y - q.y) ^ 2

/-- JS `x - Math.floor(x)`. -/
def jsFrac (q : ℚ) : ℚ := q - ⌊q⌋

/-- `seededRandom` of part_000: `Math.sin(seed) * 10000` minus its floor. -/
def seededRandom (m : MathOps) (seed : ℚ) : ℚ := jsFrac (m.sin seed * 10000)

/-- `generateSeed` of part_000: the sum of the name's character codes.  (The
same fold is inlined in `radar V8.tsx` and `tech-radar.tsx`.  For the Basic
Multilingual Plane strings appearing here, UTF-16 `charCodeAt` agrees with the
Unicode code point `Char.toNat`.) -/
def generateSeed (name : String) : ℕ := (name.data.map Char.toNat).sum

/-- JS `toLowerCase`, modelled per character (the strings appearing here are
ASCII, where JS and per-character lowering agree). -/
def jsToLower (s : String) : String := ⟨s.data.map Char.toLower⟩

/-- Remove the first `'&'`, as the JS string-argument `replace("&", "")` does. -/
def removeFirstAmp : List Char → List Char
  | [] => []
  | c :: cs => if c = '&' then cs else c :: removeFirstAmp cs

/-- `s.toLowerCase().replace(/\s+/g, "").replace("&", "")`: the quadrant-key
normalisation shared by all variants. -/
def normalizeQuadrantKey (s : String) : String :=
  ⟨removeFirstAmp ((jsToLower s).data.filter (fun c => !c.isWhitespace))⟩

/-- An input item as the layout engine reads it: identifying `name`, category
(`quadrant`), maturity level (`ring`).  `descr` stands for the descriptive
fields that are opaque to the layout and merely passed through. -/
structure Tech where
  name : String
  quadrant : String
  ring : String
  descr : String
deriving DecidableEq

/-- An output item: the input fields plus the assigned coordinates and id. -/
structure PlacedTech where
  name : String
  quadrant : String
  ring : String
  descr : String
  id : ℕ
  x : ℚ
  y : ℚ
deriving DecidableEq

namespace V1

/-- One entry of part_000's (first document) `quadrantMap`. -/
structure QuadCfg where
  startAngle : ℚ
  endAngle : ℚ
  sector : ℕ
deriving DecidableEq

/-- One entry of part_000's (first document) `ringMap`. -/
structure RingCfg where
  minRadius : ℚ
  maxRadius : ℚ
  order : ℕ
deriving DecidableEq

/-- `quadrantMap` of part_000 (first document). -/
def quadrantMap (key : String) : Option QuadCfg :=
  if key = "techniques" then some ⟨piQ + 0.1, 3 * piQ / 2 - 0.1, 0⟩
  else if key = "tools" then some ⟨3 * piQ / 2 + 0.1, 2 * piQ - 0.1, 1⟩
  else if key = "platforms" then some ⟨0.1, piQ / 2 - 0.1, 2⟩
  else if key = "languagesframeworks" then some ⟨piQ / 2 + 0.1, piQ - 0.1, 3⟩
  else none

/-- `ringMap` of part_000 (first document). -/
def ringMap (key : String) : Option RingCfg :=
  if key = "adopt" then some ⟨20, 80, 0⟩
  else if key = "trial" then some ⟨90, 150, 1⟩
  else if key = "assess" then some ⟨160, 220, 2⟩
  else if key = "hold" then some ⟨230, 290, 3⟩
  else none

/-- Collision test of `calculateOptimizedPosition`: some already-placed item of
a different name lies strictly closer than `minDistance` (squared). -/
def hasCollision (tech : Tech) (placed : List PlacedTech) (minDistSq : ℚ)
    (p : Point) : Bool :=
  placed.any (fun o =>
    (o.name != tech.name) && decide (distSq p ⟨o.x, o.y⟩ < minDistSq))

/-- Polar candidate (angle, radius) for retry attempt `j` of
`calculateOptimizedPosition`: `j = 0` is the initial seeded draw; `j + 1` is
the draw made after attempt `j` collided, with `adjustSeed = seed + j + 10`. -/
def candidate (m : MathOps) (qc : QuadCfg) (rc : RingCfg)
    (seed angleRange paddedAngleRange radiusRange : ℚ) : ℕ → ℚ × ℚ
  | 0 =>
    (qc.startAngle + angleRange * 0.1 + seededRandom m seed * paddedAngleRange,
     rc.minRadius + 10 + seededRandom m (seed + 1) * radiusRange)
  | j + 1 =>
    (qc.startAngle + angleRange * 0.1
       + seededRandom m (seed + j + 10) * paddedAngleRange,
     rc.minRadius + 10 + seededRandom m (seed + j + 10 + 1) * radiusRange)

/-- The `while (attempts < maxAttempts)` retry of `calculateOptimizedPosition`.
`fuel` counts the attempts still allowed, `k` indexes the current candidate.
A colliding candidate is replaced by the next draw; when the budget runs out
the current (just re-drawn, never tested) candidate is returned as is.
(Generic in the candidate type: `calculateOptimizedPosition` runs it on polar
pairs; the collision-resolver theorems run the same loop on points.) -/
def retryLoop {α : Type} (ok : α → Bool) (cand : ℕ → α) :
    ℕ → ℕ → α → α
  | 0, _, pos => pos
  | fuel + 1, k, pos =>
    if ok pos then pos else retryLoop ok cand fuel (k + 1) (cand (k + 1))

/-- Number of collision tests the retry loop performs before returning. -/
def retryLoopSteps {α : Type} (ok : α → Bool) (cand : ℕ → α) :
    ℕ → ℕ → α → ℕ
  | 0, _, _ => 0
  | fuel + 1, k, pos =>
    if ok pos then 1 else 1 + retryLoopSteps ok cand fuel (k + 1) (cand (k + 1))

/-- `calculateOptimizedPosition` of part_000 (first document), `center = 300`. -/
def calculateOptimizedPosition (m : MathOps) (tech : Tech)
    (itemsInSameRingQuadrant : List PlacedTech) : Point :=
  match quadrantMap (normalizeQuadrantKey tech.quadrant),
        ringMap (jsToLower tech.ring) with
  | some quadrantConfig, some ringConfig =>
    let seed : ℚ := (generateSeed tech.name : ℕ)
    let angleRange0 := quadrantConfig.endAngle - quadrantConfig.startAngle
    let angleRange := if angleRange0 ≤ 0 then angleRange0 + 2 * piQ else angleRange0
    let paddedAngleRange := angleRange * 0.8
    let radiusRange := ringConfig.maxRadius - ringConfig.minRadius - 20
    let toPoint : ℚ × ℚ → Point := fun ar =>
      ⟨300 + ar.2 * m.cos ar.1, 300 + ar.2 * m.sin ar.1⟩
    let cand := candidate m quadrantConfig ringConfig seed angleRange
      paddedAngleRange radiusRange
    let final := retryLoop
      (fun ar => !hasCollision tech itemsInSameRingQuadrant (35 ^ 2) (toPoint ar))
      cand 10 0 (cand 0)
    toPoint final
  | _, _ => ⟨300, 300⟩

/-- Group membership used by the orchestrator's `filter`: same normalised
quadrant key and same lower-cased ring key. -/
def sameGroup (tech : Tech) (positioned : PlacedTech) : Bool :=
  (normalizeQuadrantKey positioned.quadrant == normalizeQuadrantKey tech.quadrant)
    && (jsToLower positioned.ring == jsToLower tech.ring)

/-- The `technologies.forEach` of part_000 (first document): `positioned` is the
accumulated output so far, `idCounter` the running id. -/
def positionEach (m : MathOps) :
    List Tech → List PlacedTech → ℕ → List PlacedTech
  | [], _, _ => []
  | tech :: rest, positioned, idCounter =>
    let itemsInSameGroup := positioned.filter (sameGroup tech)
    let p := calculateOptimizedPosition m tech itemsInSameGroup
    let placed : PlacedTech :=
      ⟨tech.name, tech.quadrant, tech.ring, tech.descr, idCounter, p.x, p.y⟩
    placed :: positionEach m rest (positioned ++ [placed]) (idCounter + 1)

/-- `calculateTechnologyPositions` of part_000 (first document). -/
def calculateTechnologyPositions (m : MathOps) (technologies : List Tech) :
    List PlacedTech :=
  positionEach m technologies [] 1

end V1

/-- JS `Array.prototype.findIndex`: index of the first match, `-1` if none. -/
def jsFindIndex {α : Type} (l : List α) (p : α → Bool) : ℤ :=
  match l with
  | [] => -1
  | a :: rest =>
    if p a then 0
    else if jsFindIndex rest p = -1 then -1 else jsFindIndex rest p + 1

namespace V8

/-- One entry of the `rings` array of `radar V8.tsx`. -/
structure RingCfg where
  name : String
  altName : String
  radius : ℚ
deriving DecidableEq

/-- One entry of the `quadrants` array of `radar V8.tsx` (angles in degrees). -/
structure QuadCfg where
  name : String
  key : String
  startAngle : ℚ
  endAngle : ℚ
deriving DecidableEq

/-- `maxRadius = center - 40` with `center = config.size / 2 = 300`. -/
def maxRadius : ℚ := 300 - 40

/-- The `rings` array of `radar V8.tsx`. -/
def rings : List RingCfg :=
  [⟨"Adopt", "ADOPT", maxRadius * 0.25⟩,
   ⟨"Trial", "TRIAL", maxRadius * 0.45⟩,
   ⟨"Assess", "ASSESS", maxRadius * 0.7⟩,
   ⟨"Hold", "HOLD", maxRadius * 0.95⟩]

/-- The `quadrants` array of `radar V8.tsx`. -/
def quadrants : List QuadCfg :=
  [⟨"Techniques", "techniques", 180, 270⟩,
   ⟨"Tools", "tools", 270, 360⟩,
   ⟨"Platforms", "platforms", 90, 180⟩,
   ⟨"Languages & Frameworks", "languagesframeworks", 0, 90⟩]

/-- The quadrant lookup of `calculatePosition`: match by display name or by
normalised key. -/
def findQuadrant (item : Tech) : Option QuadCfg :=
  quadrants.find? (fun q =>
    (q.name == item.quadrant)
      || (q.key == normalizeQuadrantKey item.quadrant))

/-- The ring lookup of `calculatePosition`, by name or capitalised alternate
name, together with the index of the entry found (for `rings.indexOf(ring)`). -/
def findRing (item : Tech) : Option (ℕ × RingCfg) :=
  rings.enum.find? (fun ir =>
    (ir.2.name == item.ring) || (ir.2.altName == item.ring))

/-- `minRadius` of `calculatePosition`: `25` for the innermost ring, otherwise
the previous ring's radius plus `15`. -/
def minRadiusOf (ringIdx : ℕ) : ℚ :=
  if ringIdx = 0 then 25 else (rings.getD (ringIdx - 1) ⟨"", "", 0⟩).radius + 15

/-- The raw inner boundary of the band of ring `ringIdx`: the previous ring's
radius (`0` for the innermost band). -/
def rawInnerRadius (ringIdx : ℕ) : ℚ :=
  if ringIdx = 0 then 0 else (rings.getD (ringIdx - 1) ⟨"", "", 0⟩).radius

/-- The polar pair (angle in radians, radius) that `calculatePosition` of
`radar V8.tsx` computes before converting to cartesian coordinates, for a
resolved quadrant/ring.  Mirrors the source line by line. -/
def polarPosition (m : MathOps) (item : Tech) (group : List Tech)
    (quadrant : QuadCfg) (ringIdx : ℕ) (ring : RingCfg) : ℚ × ℚ :=
  let seed : ℚ := (generateSeed item.name : ℕ)
  let random1 := m.sin (seed * 0.1) * 0.5 + 0.5
  let random2 := m.sin (seed * 0.2) * 0.5 + 0.5
  let random3 := m.sin (seed * 0.3) * 0.5 + 0.5
  let itemIndex : ℤ := jsFindIndex group (fun i => i.name == item.name)
  let totalItems : ℕ := group.length
  let startAngleRad := quadrant.startAngle * piQ / 180
  let endAngleRad := quadrant.endAngle * piQ / 180
  let angleRange0 := endAngleRad - startAngleRad
  let angleRange := if angleRange0 ≤ 0 then angleRange0 + 2 * piQ else angleRange0
  let usableAngleRange := angleRange * 0.7
  let angleMargin := angleRange * 0.15
  let angle :=
    if totalItems = 1 then
      startAngleRad + angleRange * 0.5 + (random1 - 0.5) * angleRange * 0.3
    else
      let baseAngleStep := usableAngleRange / (totalItems : ℚ)
      let baseAngle := startAngleRad + angleMargin + ((itemIndex : ℚ) + 0.5) * baseAngleStep
      let randomOffset := (random1 - 0.5) * baseAngleStep * 0.6
      baseAngle + randomOffset
  let minRadius := minRadiusOf ringIdx
  let maxRadius := ring.radius - 15
  let radiusRange := maxRadius - minRadius
  let baseRadius := minRadius + radiusRange * 0.1 + radiusRange * 0.7 * random2
  let radiusJitter := radiusRange * 0.3 * (random3 - 0.5)
  let radius := max (minRadius + 3) (min (maxRadius - 3) (baseRadius + radiusJitter))
  (angle, radius)

/-- `calculatePosition` of `radar V8.tsx` (`center = 300`): the polar position
converted to cartesian coordinates, plus the final per-axis jitter
`(random2 - 0.5) * 8`, `(random3 - 0.5) * 8`. -/
def calculatePosition (m : MathOps) (item : Tech) (group : List Tech) : Point :=
  match findQuadrant item, findRing item with
  | some quadrant, some (ringIdx, ring) =>
    let seed : ℚ := (generateSeed item.name : ℕ)
    let random2 := m.sin (seed * 0.2) * 0.5 + 0.5
    let random3 := m.sin (seed * 0.3) * 0.5 + 0.5
    let ar := polarPosition m item group quadrant ringIdx ring
    let baseX := 300 + ar.2 * m.cos ar.1
    let baseY := 300 + ar.2 * m.sin ar.1
    ⟨baseX + (random2 - 0.5) * 8, baseY + (random3 - 0.5) * 8⟩
  | _, _ => ⟨300, 300⟩

/-- `processedData` of `radar V8.tsx`: a `map` over the input items.  The
collision group of an item is every input item with the same `ring` and
`quadrant` strings (the item itself included); `id` is the global index.
The derived display colours are rendering-only and omitted. -/
def processedData (m : MathOps) (items : List Tech) : List PlacedTech :=
  items.enum.map (fun gi =>
    let item := gi.2
    let itemsInSameRingQuadrant := items.filter (fun other =>
      (other.ring == item.ring) && (other.quadrant == item.quadrant))
    let position := calculatePosition m item itemsInSameRingQuadrant
    ⟨item.name, item.quadrant, item.ring, item.descr, gi.1, position.x, position.y⟩)

end V8

/-- The exact rational value of the IEEE-754 double `Number.MAX_VALUE`, the
initial value of the running minimum-distance accumulator in
`tech-radar.tsx`.  In the squared-distance embedding it plays the same role of
a top element: `min` with it yields the other operand for every distance that
actually occurs. -/
def jsMaxValue : ℚ := (2 ^ 53 - 1) * 2 ^ 971

namespace TR

/-- One entry of the `rings` array of `tech-radar.tsx`. -/
structure RingCfg where
  name : String
  radius : ℚ
deriving DecidableEq

/-- One entry of the `quadrants` array of `tech-radar.tsx` (degrees). -/
structure QuadCfg where
  name : String
  key : String
  startAngle : ℚ
  endAngle : ℚ
deriving DecidableEq

/-- The `rings` array of `tech-radar.tsx`. -/
def rings : List RingCfg :=
  [⟨"ADOPT", 60⟩, ⟨"TRIAL", 100⟩, ⟨"ASSESS", 140⟩, ⟨"HOLD", 180⟩]

/-- The `quadrants` array of `tech-radar.tsx`. -/
def quadrants : List QuadCfg :=
  [⟨"Techniques", "techniques", 180, 270⟩,
   ⟨"Tools", "tools", 270, 360⟩,
   ⟨"Platforms", "platforms", 90, 180⟩,
   ⟨"Languages & Frameworks", "languagesframeworks", 0, 90⟩]

/-- Quadrant lookup of `tech-radar.tsx`'s `calculatePosition` (by key only). -/
def findQuadrant (item : PlacedTech) : Option QuadCfg :=
  quadrants.find? (fun q => q.key == normalizeQuadrantKey item.quadrant)

/-- Ring lookup (by exact name only), with the index of the entry found. -/
def findRing (item : PlacedTech) : Option (ℕ × RingCfg) :=
  rings.enum.find? (fun ir => ir.2.name == item.ring)

/-- The collision scan of `tech-radar.tsx`: walk the existing positions
accumulating the running minimum (squared) distance, stopping at the first
position strictly closer than `minDistance` (squared: `minDistSq`).  Returns
the collision flag and the accumulated minimum, which — because of the early
`break` — covers only the scanned prefix. -/
def scanExisting (minDistSq : ℚ) (c : Point) : List Point → ℚ → Bool × ℚ
  | [], acc => (false, acc)
  | e :: rest, acc =>
    let d := distSq c e
    let acc2 := min acc d
    if d < minDistSq then (true, acc2) else scanExisting minDistSq c rest acc2

/-- The `while (attempts < maxAttempts)` loop of `tech-radar.tsx`'s
`calculatePosition`: accept the first candidate whose scan reports no
collision (or any candidate when there are no existing positions); otherwise
track the best candidate seen, judged by the scan's truncated running minimum,
and return it when the budget is exhausted. -/
def tryLoop (cand : ℕ → Point) (existing : List Point) (minDistSq : ℚ) :
    ℕ → ℕ → Point → ℚ → Point
  | 0, _, best, _ => best
  | fuel + 1, k, best, bestDSq =>
    let c := cand k
    let scanned := scanExisting minDistSq c existing jsMaxValue
    if !scanned.1 || existing.isEmpty then c
    else if scanned.2 > bestDSq then
      tryLoop cand existing minDistSq fuel (k + 1) c scanned.2
    else tryLoop cand existing minDistSq fuel (k + 1) best bestDSq

/-- Number of candidates the loop draws before returning. -/
def tryLoopSteps (cand : ℕ → Point) (existing : List Point) (minDistSq : ℚ) :
    ℕ → ℕ → Point → ℚ → ℕ
  | 0, _, _, _ => 0
  | fuel + 1, k, best, bestDSq =>
    let c := cand k
    let scanned := scanExisting minDistSq c existing jsMaxValue
    if !scanned.1 || existing.isEmpty then 1
    else if scanned.2 > bestDSq then
      1 + tryLoopSteps cand existing minDistSq fuel (k + 1) c scanned.2
    else 1 + tryLoopSteps cand existing minDistSq fuel (k + 1) best bestDSq

/-- Candidate for attempt `k` (`attemptSeed = seed + attempts * 1337`),
`center = 200`. -/
def candidate (m : MathOps)
    (seed startAngleRad angleRange minRadius radiusRange normalizedIndex : ℚ)
    (k : ℕ) : Point :=
  let attemptSeed := seed + (k : ℚ) * 1337
  let baseAngle := startAngleRad + angleRange * 0.8 * normalizedIndex + angleRange * 0.1
  let randomAngleOffset := (seededRandom m attemptSeed - 0.5) * angleRange * 0.3
  let angle := baseAngle + randomAngleOffset
  let radiusProgress := seededRandom m (attemptSeed + 1)
  let radius := minRadius + radiusProgress * radiusRange
  ⟨200 + radius * m.cos angle, 200 + radius * m.sin angle⟩

/-- `calculatePosition` of `tech-radar.tsx` (`center = 200`,
`minDistance = 25`, `maxAttempts = 50`).  `allItems` is the working list whose
first `itemIndex` entries already carry their final coordinates. -/
def calculatePosition (m : MathOps) (item : PlacedTech)
    (allItems : List PlacedTech) (itemIndex : ℕ) : Point :=
  match findQuadrant item, findRing item with
  | some quadrant, some (ringIdx, ring) =>
    let seed : ℚ := (generateSeed item.name : ℕ)
    let existingPositions : List Point :=
      ((allItems.take itemIndex).filter (fun e =>
        (e.ring == item.ring) && (e.quadrant == item.quadrant))).map
        (fun e => ⟨e.x, e.y⟩)
    let startAngleRad := quadrant.startAngle * piQ / 180
    let endAngleRad := quadrant.endAngle * piQ / 180
    let angleRange0 := endAngleRad - startAngleRad
    let angleRange := if angleRange0 ≤ 0 then angleRange0 + 2 * piQ else angleRange0
    let minRadius :=
      if ringIdx = 0 then 25 else (rings.getD (ringIdx - 1) ⟨"", 0⟩).radius + 15
    let maxRadius := ring.radius - 15
    let radiusRange := maxRadius - minRadius
    let normalizedIndex := (itemIndex : ℚ) / max ((allItems.length : ℚ) - 1) 1
    let cand := candidate m seed startAngleRad angleRange minRadius radiusRange
      normalizedIndex
    tryLoop cand existingPositions (25 ^ 2) 50 0 ⟨200, 200⟩ 0
  | _, _ => ⟨200, 200⟩

/-- The second pass of `processedData`: process the items left to right, each
one seeing the already-updated prefix (the source mutates `tempItems` in
place; here `acc` is the updated prefix and `rest` the untouched suffix). -/
def processPass (m : MathOps) (acc : List PlacedTech) :
    List PlacedTech → List PlacedTech
  | [] => acc
  | item :: rest =>
    let idx := acc.length
    let position := calculatePosition m item (acc ++ item :: rest) idx
    let updated : PlacedTech :=
      ⟨item.name, item.quadrant, item.ring, item.descr, item.id,
       position.x, position.y⟩
    processPass m (acc ++ [updated]) rest

/-- `processedData` of `tech-radar.tsx`: first pass creates items at the
center with `id = globalIndex`; the second pass fills in positions with
collision detection against the already-processed prefix. -/
def processedData (m : MathOps) (items : List Tech) : List PlacedTech :=
  let tempItems : List PlacedTech := items.enum.map (fun gi =>
    ⟨gi.2.name, gi.2.quadrant, gi.2.ring, gi.2.descr, gi.1, 200, 200⟩)
  processPass m [] tempItems

end TR

/-- A rational stand-in for the IEEE value `Infinity` that
`generateGridPositions` uses when there are no distances yet: any value
strictly larger than every finite quantity occurring in the computation has
the same behaviour under `min`, `≥` and `>`. -/
def jsInfinity : ℚ := 2 ^ 1100

namespace Spiral

/-- One entry of part_000's (second document) `quadrantMap`. -/
structure QuadCfg where
  startAngle : ℚ
  endAngle : ℚ
  sector : ℕ
deriving DecidableEq

/-- One entry of the caller-supplied `config.rings`. -/
structure RingEntry where
  name : String
  radius : ℚ
deriving DecidableEq

/-- `quadrantMap` of part_000 (second document), with the tighter `0.15`
padding. -/
def quadrantMap (key : String) : Option QuadCfg :=
  if key = "techniques" then some ⟨piQ + 0.15, 3 * piQ / 2 - 0.15, 0⟩
  else if key = "tools" then some ⟨3 * piQ / 2 + 0.15, 2 * piQ - 0.15, 1⟩
  else if key = "platforms" then some ⟨0.15, piQ / 2 - 0.15, 2⟩
  else if key = "languagesframeworks" then some ⟨piQ / 2 + 0.15, piQ - 0.15, 3⟩
  else none

/-- `Math.min(...distances)` over the (squared) distances from `p` to
`others`, `Infinity` when the list is empty. -/
def minDistSqTo (p : Point) (others : List Point) : ℚ :=
  (others.map (distSq p)).foldl min jsInfinity

/-- The repulsion-force accumulation both force functions run: for every
existing point strictly closer than `threshold` (and at positive distance),
add a displacement away from it of magnitude `forceStrength / max dist 1`. -/
def sumForces (m : MathOps) (threshold forceStrength : ℚ)
    (existing : List Point) (p : Point) : ℚ × ℚ :=
  existing.foldl (fun (f : ℚ × ℚ) e =>
    let dx := p.x - e.x
    let dy := p.y - e.y
    let dist := m.sqrt (dx * dx + dy * dy)
    if dist < threshold ∧ dist > 0 then
      let force := forceStrength / max dist 1
      (f.1 + dx / dist * force, f.2 + dy / dist * force)
    else f) (0, 0)

/-- The ring constraint both force functions run after applying the forces:
re-scale the point so that its measured radius lands in
`[minRadius, maxRadius]`; a point measuring radius `0` is left alone. -/
def constrainToRing (m : MathOps) (minRadius maxRadius : ℚ) (p : Point) :
    Point :=
  let currentRadius := m.sqrt (p.x * p.x + p.y * p.y)
  if currentRadius > 0 then
    let targetRadius := max minRadius (min maxRadius currentRadius)
    let scale := targetRadius / currentRadius
    ⟨p.x * scale, p.y * scale⟩
  else p

/-- One iteration of the repulsion loop of `findForceBasedPosition`: sum the
repulsive forces (threshold `minDistance * 2`), apply them, constrain to the
ring, then constrain to the quadrant (snap to the mid-angle ray whenever the
measured normalised angle leaves `[startAngle, endAngle]`). -/
def forceStep (m : MathOps) (minRadius maxRadius startAngle endAngle midAngle
    minDistance forceStrength : ℚ) (existing : List Point) (p : Point) :
    Point :=
  let fs := sumForces m (minDistance * 2) forceStrength existing p
  let q := constrainToRing m minRadius maxRadius ⟨p.x + fs.1, p.y + fs.2⟩
  let currentAngle := m.atan2 q.y q.x
  let normalizedAngle :=
    if currentAngle < 0 then currentAngle + 2 * piQ else currentAngle
  if normalizedAngle < startAngle ∨ normalizedAngle > endAngle then
    let currentRadius2 := m.sqrt (q.x * q.x + q.y * q.y)
    ⟨m.cos midAngle * currentRadius2, m.sin midAngle * currentRadius2⟩
  else q

/-- One iteration of the repulsion loop of `findEmergencyPosition`: forces
(threshold `32`, strength `3`), then the ring constraint only — there is no
quadrant constraint in this function. -/
def emergencyStep (m : MathOps) (minRadius maxRadius : ℚ)
    (existing : List Point) (p : Point) : Point :=
  let fs := sumForces m 32 3 existing p
  constrainToRing m minRadius maxRadius ⟨p.x + fs.1, p.y + fs.2⟩

/-- Bounded iteration of a step function (`for (let i = 0; i < n; i++)`). -/
def forceIter (step : Point → Point) : ℕ → Point → Point
  | 0, p => p
  | n + 1, p => forceIter step n (step p)

/-- `findForceBasedPosition` of part_000 (second document): start at the
mid-angle, mid-radius point and run `iterations = 50` repulsion steps with
`forceStrength = 5`. -/
def findForceBasedPosition (m : MathOps) (ringRadius : ℚ) (qc : QuadCfg)
    (existing : List Point) (minDistance : ℚ) : Point :=
  let minRadius := max 60 (ringRadius - 45)
  let maxRadius := ringRadius - 30
  let midRadius := (ringRadius + max 60 (ringRadius - 45)) / 2
  let midAngle := (qc.startAngle + qc.endAngle) / 2
  let p0 : Point := ⟨m.cos midAngle * midRadius, m.sin midAngle * midRadius⟩
  forceIter
    (forceStep m minRadius maxRadius qc.startAngle qc.endAngle midAngle
      minDistance 5 existing) 50 p0

/-- `findEmergencyPosition` of part_000 (second document): start at the same
point and run `iterations = 30` repulsion steps (threshold `32`, strength
`3`), with the ring constraint but no quadrant constraint. -/
def findEmergencyPosition (m : MathOps) (ringRadius : ℚ) (qc : QuadCfg)
    (existing : List Point) : Point :=
  let midRadius := (ringRadius + max 60 (ringRadius - 45)) / 2
  let midAngle := (qc.startAngle + qc.endAngle) / 2
  let p0 : Point := ⟨m.cos midAngle * midRadius, m.sin midAngle * midRadius⟩
  forceIter (emergencyStep m (max 60 (ringRadius - 45)) (ringRadius - 30)
    existing) 30 p0

/-- One candidate of `generateGridPositions` for item `i` of `count`, drawing
the two `Math.random()` values `rng ctr` and `rng (ctr + 1)`. -/
def gridAttempt (m : MathOps) (rng : ℕ → ℚ) (ctr : ℕ) (qc : QuadCfg)
    (minRadius maxRadius arcAngle radialSpace angleStep radiusStep : ℚ)
    (i count : ℕ) : Point :=
  let spiralProgress := (i : ℚ) / (count : ℚ)
  let angle := qc.startAngle + spiralProgress * arcAngle
    + (rng ctr - 0.5) * angleStep * 0.8
  let radius := minRadius + spiralProgress * radialSpace
    + (rng (ctr + 1) - 0.5) * radiusStep * 0.6
  let clampedAngle := max (qc.startAngle + 0.1) (min (qc.endAngle - 0.1) angle)
  let clampedRadius := max (minRadius + 15) (min (maxRadius - 15) radius)
  ⟨m.cos clampedAngle * clampedRadius, m.sin clampedAngle * clampedRadius⟩

/-- The 20-attempt candidate search of `generateGridPositions` for one item:
keep the best candidate whose (squared) minimum distance to all existing and
already-chosen positions both clears `minDistance = 32` and improves on the
best so far.  Returns the best candidate (if any) and the advanced
random-stream counter. -/
def gridTryLoop (m : MathOps) (rng : ℕ → ℚ) (qc : QuadCfg)
    (minRadius maxRadius arcAngle radialSpace angleStep radiusStep : ℚ)
    (others : List Point) (i count : ℕ) :
    ℕ → ℕ → Option Point → ℚ → Option Point × ℕ
  | 0, ctr, best, _ => (best, ctr)
  | fuel + 1, ctr, best, maxDist =>
    let pos := gridAttempt m rng ctr qc minRadius maxRadius arcAngle
      radialSpace angleStep radiusStep i count
    let minDistanceToOthers := minDistSqTo pos others
    if minDistanceToOthers ≥ 32 ^ 2 ∧ minDistanceToOthers > maxDist then
      gridTryLoop m rng qc minRadius maxRadius arcAngle radialSpace angleStep
        radiusStep others i count fuel (ctr + 2) (some pos) minDistanceToOthers
    else
      gridTryLoop m rng qc minRadius maxRadius arcAngle radialSpace angleStep
      radiusStep others i count fuel (ctr + 2) best maxDist

/-- The outer `for (let i = 0; i < count; i++)` of `generateGridPositions`:
for each item run the 20-attempt search; fall back to
`findForceBasedPosition` when no attempt cleared the threshold. -/
def gridItems (m : MathOps) (rng : ℕ → ℚ) (ringRadius : ℚ) (qc : QuadCfg)
    (minRadius maxRadius arcAngle radialSpace angleStep radiusStep : ℚ)
    (existing : List Point) (count : ℕ) :
    ℕ → ℕ → List Point → ℕ → List Point × ℕ
  | _, 0, positions, ctr => (positions, ctr)
  | i, rem + 1, positions, ctr =>
    let (best, ctr2) := gridTryLoop m rng qc minRadius maxRadius arcAngle
      radialSpace angleStep radiusStep (existing ++ positions) i count 20 ctr
      none 0
    let pos := match best with
      | some p => p
      | none =>
        findForceBasedPosition m ringRadius qc (existing ++ positions) 32
    gridItems m rng ringRadius qc minRadius maxRadius arcAngle radialSpace
      angleStep radiusStep existing count (i + 1) rem (positions ++ [pos]) ctr2

/-- `generateGridPositions` of part_000 (second document), with the
`Math.random()` stream `rng` and its running counter made explicit. -/
def generateGridPositions (m : MathOps) (rng : ℕ → ℚ) (ringRadius : ℚ)
    (qc : QuadCfg) (count : ℕ) (existing : List Point) (ctr : ℕ) :
    List Point × ℕ :=
  let minRadius := max 60 (ringRadius - 45)
  let maxRadius := ringRadius - 30
  let arcAngle := qc.endAngle - qc.startAngle
  let radialSpace := maxRadius - minRadius
  let spiralTurns : ℕ := max 2 (Nat.ceil ((count : ℚ) / 6))
  let angleStep := arcAngle / (max count 6 : ℕ)
  let radiusStep := radialSpace / (spiralTurns : ℚ)
  gridItems m rng ringRadius qc minRadius maxRadius arcAngle radialSpace
    angleStep radiusStep existing count 0 count [] ctr

/-- Append a tech to the entry of its ring key, preserving first-appearance
order of keys (JS object insertion order). -/
def addRing (rk : String) (t : Tech) :
    List (String × List Tech) → List (String × List Tech)
  | [] => [(rk, [t])]
  | (k, ts) :: rest =>
    if k = rk then (k, ts ++ [t]) :: rest else (k, ts) :: addRing rk t rest

/-- Append a tech to the nested entry of its quadrant and ring keys. -/
def addQuad (qk rk : String) (t : Tech) :
    List (String × List (String × List Tech)) →
    List (String × List (String × List Tech))
  | [] => [(qk, [(rk, [t])])]
  | (k, rs) :: rest =>
    if k = qk then (k, addRing rk t rs) :: rest
    else (k, rs) :: addQuad qk rk t rest

/-- The grouping `reduce` of part_000 (second document): a nested
insertion-ordered map from normalised quadrant key to ring key to the techs in
input order. -/
def groupTechs (techs : List Tech) :
    List (String × List (String × List Tech)) :=
  techs.foldl
    (fun acc t => addQuad (normalizeQuadrantKey t.quadrant) (jsToLower t.ring) t acc)
    []

/-- Emit the techs of one (quadrant, ring) group using the pre-computed grid
positions; a missing entry falls back to `findEmergencyPosition` against all
points positioned so far. -/
def placeGroup (m : MathOps) (ringRadius : ℚ) (qc : QuadCfg)
    (positions : List Point) :
    List Tech → ℕ → List Point → ℕ → List PlacedTech × List Point × ℕ
  | [], _, allPositioned, idCounter => ([], allPositioned, idCounter)
  | tech :: rest, index, allPositioned, idCounter =>
    let position := match positions.get? index with
      | some p => p
      | none => findEmergencyPosition m ringRadius qc allPositioned
    let placed : PlacedTech :=
      ⟨tech.name, tech.quadrant, tech.ring, tech.descr, idCounter,
       position.x, position.y⟩
    let rec2 := placeGroup m ringRadius qc positions rest (index + 1)
      (allPositioned ++ [position]) (idCounter + 1)
    (placed :: rec2.1, rec2.2.1, rec2.2.2)

/-- Process the ring groups of one quadrant: look up the ring in the supplied
config and the quadrant in `quadrantMap`; a failed lookup skips the whole
group (its items are dropped). -/
def processRingGroups (m : MathOps) (rng : ℕ → ℚ) (config : List RingEntry)
    (quadrantKey : String) :
    List (String × List Tech) → List Point → ℕ → ℕ →
    List PlacedTech × List Point × ℕ × ℕ
  | [], allPositioned, idCounter, ctr => ([], allPositioned, idCounter, ctr)
  | (ringKey, techs) :: rest, allPositioned, idCounter, ctr =>
    match config.find? (fun r => jsToLower r.name == ringKey),
          quadrantMap quadrantKey with
    | some ringConfig, some quadrantConfig =>
      let grid := generateGridPositions m rng ringConfig.radius quadrantConfig
        techs.length allPositioned ctr
      let placedG := placeGroup m ringConfig.radius quadrantConfig grid.1 techs
        0 allPositioned idCounter
      let tail := processRingGroups m rng config quadrantKey rest placedG.2.1
        placedG.2.2 grid.2
      (placedG.1 ++ tail.1, tail.2)
    | _, _ =>
      processRingGroups m rng config quadrantKey rest allPositioned idCounter ctr

/-- Process every quadrant group in insertion order. -/
def processQuadGroups (m : MathOps) (rng : ℕ → ℚ) (config : List RingEntry) :
    List (String × List (String × List Tech)) → List Point → ℕ → ℕ →
    List PlacedTech × List Point × ℕ × ℕ
  | [], allPositioned, idCounter, ctr => ([], allPositioned, idCounter, ctr)
  | (quadrantKey, ringGroups) :: rest, allPositioned, idCounter, ctr =>
    let done := processRingGroups m rng config quadrantKey ringGroups
      allPositioned idCounter ctr
    let tail := processQuadGroups m rng config rest done.2.1 done.2.2.1
      done.2.2.2
    (done.1 ++ tail.1, tail.2)

/-- `calculateTechnologyPositions` of part_000 (second document): group by
normalised (quadrant, ring) key, then position group by group.  The hidden
`Math.random()` source is the explicit stream `rng` (consumed two values per
candidate attempt). -/
def calculateTechnologyPositions (m : MathOps) (rng : ℕ → ℚ)
    (technologies : List Tech) (config : List RingEntry) : List PlacedTech :=
  (processQuadGroups m rng config (groupTechs technologies) [] 1 0).1

end Spiral

/-! ## Claim-level notions

Definitions used only to state the claims: the collision resolver exactly as
the specification's §4.4 words it, the measured sector/band membership used by
the clamping claim, and the bundles of facts about real `Math` functions that
appear as hypotheses. -/

/-- The loop of `calculateOptimizedPosition` at the level of point candidates:
the same `retryLoop` skeleton that `calculateOptimizedPosition` runs on its
seeded polar sampler, here fed an arbitrary candidate sequence and sibling
set, as the collision-resolver claim quantifies. -/
def v1PlaceLoop (cand : ℕ → Point) (siblings : List Point) (minDistSq : ℚ)
    (maxAttempts : ℕ) : Point :=
  V1.retryLoop (fun p => !siblings.any (fun s => decide (distSq p s < minDistSq)))
    cand maxAttempts 0 (cand 0)

/-- Minimum (squared) distance from a candidate to every sibling — the
untruncated minimum the claim speaks of (`jsMaxValue` when there are none). -/
def fullMinDistSq (c : Point) (siblings : List Point) : ℚ :=
  (siblings.map (distSq c)).foldl min jsMaxValue

/-- Modelled from the spec: the collision resolver as §4.4 of the spec
describes it — candidates for attempts `0 … maxAttempts - 1`; accept the first
whose minimum distance to every sibling clears the threshold (immediately when
there are no siblings); otherwise track, across all attempts, the single best
candidate, the one with the largest minimum distance to the siblings, and
return it.  Declared only to compare the code's loops against the claim. -/
def claimPlaceAux (cand : ℕ → Point) (siblings : List Point) (minDistSq : ℚ) :
    ℕ → ℕ → Point → ℚ → Point
  | 0, _, best, _ => best
  | fuel + 1, k, best, bestD =>
    let c := cand k
    let md := fullMinDistSq c siblings
    if minDistSq ≤ md then c
    else if md > bestD then claimPlaceAux cand siblings minDistSq fuel (k + 1) c md
    else claimPlaceAux cand siblings minDistSq fuel (k + 1) best bestD

/-- Modelled from the spec: entry point of the §4.4 resolver (see
`claimPlaceAux`); with no siblings the first candidate is accepted at once. -/
def claimPlace (cand : ℕ → Point) (siblings : List Point) (minDistSq : ℚ)
    (maxAttempts : ℕ) : Point :=
  if siblings.isEmpty then cand 0
  else claimPlaceAux cand siblings minDistSq maxAttempts 0 (cand 0) (-1)

/-- A candidate clears the separation threshold against every sibling. -/
def Clears (siblings : List Point) (minDistSq : ℚ) (c : Point) : Prop :=
  ∀ s ∈ siblings, minDistSq ≤ distSq c s

instance (siblings : List Point) (minDistSq : ℚ) (c : Point) :
    Decidable (Clears siblings minDistSq c) := by
  unfold Clears; infer_instance

/-- The normalised measured angle of a point, exactly as the source computes
it: `Math.atan2(y, x)`, shifted by `2π` when negative. -/
def normalizedAngleOf (m : MathOps) (p : Point) : ℚ :=
  let a := m.atan2 p.y p.x
  if a < 0 then a + 2 * piQ else a

/-- Measured membership in the angular sector `[startAngle, endAngle]` — the
very test the force-relaxation code applies. -/
def inSectorMeasured (m : MathOps) (startAngle endAngle : ℚ) (p : Point) : Prop :=
  startAngle ≤ normalizedAngleOf m p ∧ normalizedAngleOf m p ≤ endAngle

/-- Measured membership in the radial band `[minRadius, maxRadius]`. -/
def inBandMeasured (m : MathOps) (minRadius maxRadius : ℚ) (p : Point) : Prop :=
  minRadius ≤ m.sqrt (p.x * p.x + p.y * p.y)
    ∧ m.sqrt (p.x * p.x + p.y * p.y) ≤ maxRadius

/-- Facts about real `Math.sin` / `Math.cos` that some theorems assume: both
are bounded by one. -/
def SinCosBounded (m : MathOps) : Prop :=
  (∀ q, |m.sin q| ≤ 1) ∧ (∀ q, |m.cos q| ≤ 1)

/-- Facts about real `Math.sqrt` that some theorems assume: non-negative
values, and exactness on perfect squares. -/
def SqrtFacts (m : MathOps) : Prop :=
  (∀ q, 0 ≤ m.sqrt q) ∧ (∀ q : ℚ, 0 ≤ q → m.sqrt (q * q) = q)

/-- Facts about real `Math.atan2` that some theorems assume, stated with safe
rational bounds around `±π/2` and `±π`: the quadrant of the argument pins the
result to the corresponding range. -/
def Atan2Facts (m : MathOps) : Prop :=
  (∀ y x, 0 < x → 0 < y → 0 < m.atan2 y x ∧ m.atan2 y x < 8/5) ∧
  (∀ y x, x < 0 → 0 < y → 3/2 < m.atan2 y x ∧ m.atan2 y x < 16/5) ∧
  (∀ y x, x < 0 → y < 0 → -(7/2) < m.atan2 y x ∧ m.atan2 y x < -(3/2)) ∧
  (∀ y x, 0 < x → y < 0 → -(8/5) < m.atan2 y x ∧ m.atan2 y x < 0) ∧
  (∀ x, 0 < x → m.atan2 0 x = 0) ∧
  (∀ x, x < 0 → 3 < m.atan2 0 x ∧ m.atan2 0 x < 16/5) ∧
  (∀ y, 0 < y → 3/2 < m.atan2 y 0 ∧ m.atan2 y 0 < 8/5) ∧
  (∀ y, y < 0 → -(8/5) < m.atan2 y 0 ∧ m.atan2 y 0 < -(3/2))

/-- A computable square root on `ℚ` (componentwise `Nat.sqrt`), used to
instantiate `MathOps.sqrt` in witnesses and counterexamples: it is exact on
squares of non-negative rationals and non-negative everywhere, so it satisfies
`SqrtFacts`. -/
def ratSqrt (q : ℚ) : ℚ := (Nat.sqrt q.num.toNat : ℚ) / (Nat.sqrt q.den : ℚ)

/-- The truncated minimum (squared) distance the `tech-radar.tsx` loop tracks:
the running minimum accumulated by the collision scan, which stops at the
first existing point closer than the threshold. -/
def truncMinDistSq (minDistSq : ℚ) (c : Point) (existing : List Point) : ℚ :=
  (TR.scanExisting minDistSq c existing jsMaxValue).2

/-- Unit-circle identity of real `Math.cos` / `Math.sin`, assumed by the
strict-containment theorem. -/
def UnitCircle (m : MathOps) : Prop := ∀ q, m.cos q ^ 2 + m.sin q ^ 2 = 1

/-- Facts about real `Math.cos` / `Math.sin` on the four angular windows the
single-item placement can produce (one per quadrant, each the middle
`[0.175, 0.325]` fraction of a quadrant of the circle): the cosine and sine
are bounded away from zero with the signs of that quadrant.  (For instance
`cos` on `[0.175 π, 0.325 π] ⊆ [0.549, 1.022]` lies in `[0.52, 0.86]`.) -/
def TrigWindow (m : MathOps) : Prop :=
  (∀ q, piQ * (7/40) ≤ q → q ≤ piQ * (13/40) → 1/2 ≤ m.cos q ∧ 1/2 ≤ m.sin q) ∧
  (∀ q, piQ * (27/40) ≤ q → q ≤ piQ * (33/40) → m.cos q ≤ -(1/2) ∧ 1/2 ≤ m.sin q) ∧
  (∀ q, piQ * (47/40) ≤ q → q ≤ piQ * (53/40) → m.cos q ≤ -(1/2) ∧ m.sin q ≤ -(1/2)) ∧
  (∀ q, piQ * (67/40) ≤ q → q ≤ piQ * (73/40) → 1/2 ≤ m.cos q ∧ m.sin q ≤ -(1/2))

/-- Strict interior of the angular sector of a `radar V8.tsx` quadrant, in
sign form relative to the centre `(300, 300)`: for the four axis-aligned
quadrants used there, a point at positive radius lies strictly inside the open
angular interval of the quadrant exactly when the corresponding strict sign
conditions hold. -/
def sectorStrict (key : String) (p : Point) : Prop :=
  if key = "techniques" then p.x < 300 ∧ p.y < 300
  else if key = "tools" then 300 < p.x ∧ p.y < 300
  else if key = "platforms" then p.x < 300 ∧ 300 < p.y
  else if key = "languagesframeworks" then 300 < p.x ∧ 300 < p.y
  else False

/-- The clamping claim as stated, against the code's own measurements: for
every invocation of either force-based fallback, under the stated facts about
the real `Math` functions, a resolvable quadrant and a sane ring radius, the
returned point lies in the assigned sector and band. -/
def ClampClaim : Prop :=
  ∀ m : MathOps, SinCosBounded m → SqrtFacts m → Atan2Facts m →
  ∀ (ringRadius : ℚ) (qc : Spiral.QuadCfg) (existing : List Point)
    (minDistance : ℚ) (key : String),
    Spiral.quadrantMap key = some qc → 90 ≤ ringRadius →
    (inSectorMeasured m qc.startAngle qc.endAngle
        (Spiral.findForceBasedPosition m ringRadius qc existing minDistance)
      ∧ inBandMeasured m (max 60 (ringRadius - 45)) (ringRadius - 30)
        (Spiral.findForceBasedPosition m ringRadius qc existing minDistance))
    ∧ (inSectorMeasured m qc.startAngle qc.endAngle
        (Spiral.findEmergencyPosition m ringRadius qc existing)
      ∧ inBandMeasured m (max 60 (ringRadius - 45)) (ringRadius - 30)
        (Spiral.findEmergencyPosition m ringRadius qc existing))

/-! ## Concrete instances for witnesses and counterexamples -/

/-- Trivial interpretation of the `Math` functions (all zero), enough for
statements that do not constrain them. -/
def mZero : MathOps := ⟨fun _ => 0, fun _ => 0, fun _ => 0, fun _ _ => 0⟩

/-- A sign-respecting interpretation of `Math.atan2` satisfying
`Atan2Facts`. -/
def atan2Model (y x : ℚ) : ℚ :=
  if 0 < x ∧ 0 < y then 0.785
  else if x < 0 ∧ 0 < y then 2.36
  else if x < 0 ∧ y < 0 then -2.36
  else if 0 < x ∧ y < 0 then -0.785
  else if 0 < x then 0
  else if x < 0 then 3.1
  else if 0 < y then 1.55
  else if y < 0 then -1.55
  else 0

/-- Interpretation used against the clamping claim: `cos`/`sin` take the
values `3/5`, `4/5` (a rational point near the true direction) on the
platforms mid-angle `piQ / 4` and vanish elsewhere; `sqrt` is the exact
rational square root `ratSqrt`; `atan2` is `atan2Model`. -/
def mClamp : MathOps :=
  ⟨fun q => if q = piQ / 4 then 4/5 else 0,
   fun q => if q = piQ / 4 then 3/5 else 0,
   ratSqrt, atan2Model⟩

/-- Existing positions for the clamping counterexample: `27` placed points at
the same spot, one unit away from the start point of the emergency pass along
the direction `(3/5, 4/5)`. -/
def ceClampExisting : List Point := List.replicate 27 ⟨48 + 3/5, 64 + 4/5⟩

/-- The platforms entry of the spiral variant's `quadrantMap`. -/
def platformsQC : Spiral.QuadCfg := ⟨0.15, piQ / 2 - 0.15, 2⟩

/-- Candidate sequence for the collision-resolver counterexample: the
candidate of attempt `k` sits at `(k/10, 0)`, so every candidate collides
with the single sibling at the origin for `minDistance = 5`, and candidate 9
is the best-separated one among attempts `0 … 9`. -/
def ceResolverCand (k : ℕ) : Point := ⟨(k : ℚ) / 10, 0⟩

/-- The sibling set for the collision-resolver counterexample. -/
def ceResolverSibs : List Point := [⟨0, 0⟩]

/-- The angle the jitter counterexample's single item is placed at. -/
def ceJitterAngle : ℚ := piQ * (41/200)

/-- Interpretation for the containment counterexample: the seeded values give
`random1 = 1/5`, `random2 = 1`, `random3 = 17/20` for the item named `"A"`
(seed 65), and `cos`/`sin` at the resulting angle are the unit-circle point
`(4/5, 3/5)` (the true values there are `≈ (0.800, 0.600)`). -/
def mJitter : MathOps :=
  ⟨fun q => if q = 13/2 then -3/5 else if q = 13 then 1
      else if q = 39/2 then 7/10 else if q = ceJitterAngle then 3/5 else 0,
   fun q => if q = ceJitterAngle then 4/5 else 0,
   fun _ => 0, fun _ _ => 0⟩

/-- The single item of the containment counterexample. -/
def ceJitterItem : Tech := ⟨"A", "Languages & Frameworks", "Adopt", ""⟩

/-- Interpretation for the single-item witness: on each of the four angular
windows of `TrigWindow`, `cos`/`sin` take the corresponding signed
unit-circle values `(±4/5, ±3/5)`; elsewhere `(1, 0)`.  It satisfies
`SinCosBounded`, `UnitCircle` and `TrigWindow`. -/
def mSingle : MathOps :=
  ⟨fun q => if piQ * (7/40) ≤ q ∧ q ≤ piQ * (13/40) then 3/5
      else if piQ * (27/40) ≤ q ∧ q ≤ piQ * (33/40) then 3/5
      else if piQ * (47/40) ≤ q ∧ q ≤ piQ * (53/40) then -3/5
      else if piQ * (67/40) ≤ q ∧ q ≤ piQ * (73/40) then -3/5 else 0,
   fun q => if piQ * (7/40) ≤ q ∧ q ≤ piQ * (13/40) then 4/5
      else if piQ * (27/40) ≤ q ∧ q ≤ piQ * (33/40) then -4/5
      else if piQ * (47/40) ≤ q ∧ q ≤ piQ * (53/40) then -4/5
      else if piQ * (67/40) ≤ q ∧ q ≤ piQ * (73/40) then 4/5 else 1,
   fun _ => 0, fun _ _ => 0⟩

/-- The single item of the single-item witness (seed 66, so the seeded draws
`6.6`, `13.2`, `19.8` all fall outside the four windows). -/
def ceSingleItem : Tech := ⟨"B", "Languages & Frameworks", "Adopt", ""⟩

/-- Angular arc of the spiral variant's tools sector. -/
def ceArcTools : ℚ := piQ / 2 - 3/10

/-- `angleStep` of the spiral grid for a two-item tools group. -/
def ceStepTools : ℚ := ceArcTools / 6

/-- Clamped angle of spiral grid item 0 (both random streams saturate the
lower angular clamp). -/
def ceAngle0 : ℚ := 3 * piQ / 2 + 3/20 + 1/10

/-- Angle of spiral grid item 1 under the all-zeros random stream. -/
def ceAngle1 : ℚ := 3 * piQ / 2 + 3/20 + ceArcTools / 2 - ceStepTools * (2/5)

/-- Angle of spiral grid item 1 under the constant `9/10` random stream. -/
def ceAngle2 : ℚ := 3 * piQ / 2 + 3/20 + ceArcTools / 2 + ceStepTools * (8/25)

/-- Interpretation for the determinism counterexample: `cos`/`sin` take
nearby unit-ish values at the three angles the two runs can produce, and
vanish elsewhere.  (True values: `cos ≈ 0.247, 0.648, 0.752` there.) -/
def mSpiral : MathOps :=
  ⟨fun q => if q = ceAngle0 then -97/100 else if q = ceAngle1 then -19/25
      else if q = ceAngle2 then -33/50 else 0,
   fun q => if q = ceAngle0 then 1/4 else if q = ceAngle1 then 13/20
      else if q = ceAngle2 then 3/4 else 0,
   fun _ => 0, fun _ _ => 0⟩

/-- Input of the determinism counterexample: two items in the same
(tools, adopt) group. -/
def ceSpiralTechs : List Tech :=
  [⟨"a", "Tools", "ADOPT", ""⟩, ⟨"b", "Tools", "ADOPT", ""⟩]

/-- Ring configuration of the determinism counterexample. -/
def ceSpiralCfg : List Spiral.RingEntry := [⟨"ADOPT", 100⟩]

/-- Input of the order counterexample: two tools items around one techniques
item, all in the adopt ring. -/
def ceOrderTechs : List Tech :=
  [⟨"a", "Tools", "ADOPT", ""⟩, ⟨"b", "Techniques", "ADOPT", ""⟩,
   ⟨"c", "Tools", "ADOPT", ""⟩]

/-- An item whose quadrant resolves nowhere. -/
def ceUnknownTech : Tech := ⟨"t", "unknown-xyz", "adopt", ""⟩

/-- The tools entry of the spiral variant's `quadrantMap`. -/
def qcTools : Spiral.QuadCfg := ⟨3 * piQ / 2 + 0.15, 2 * piQ - 0.15, 1⟩

/-- Grid position of spiral item 0 (identical under both random streams: the
angular jitter saturates the lower clamp, and the radial clamp is inverted
and always returns `75`). -/
def ceP0 : Point := ⟨75/4, -291/4⟩

/-- Grid position of spiral item 1 under the all-zeros random stream. -/
def ceP1a : Point := ⟨195/4, -57⟩

/-- Grid position of spiral item 1 under the constant-`9/10` random
stream. -/
def ceP1b : Point := ⟨225/4, -99/2⟩

/-! ## General lemmas -/

theorem jsFrac_nonneg (q : ℚ) : 0 ≤ jsFrac q := by
  unfold jsFrac
  have h := Int.floor_le q
  linarith

theorem jsFrac_lt_one (q : ℚ) : jsFrac q < 1 := by
  unfold jsFrac
  have h := Int.lt_floor_add_one q
  linarith

theorem seededRandom_nonneg (m : MathOps) (s : ℚ) : 0 ≤ seededRandom m s :=
  jsFrac_nonneg _

theorem seededRandom_lt_one (m : MathOps) (s : ℚ) : seededRandom m s < 1 :=
  jsFrac_lt_one _

theorem ratSqrt_nonneg (q : ℚ) : 0 ≤ ratSqrt q := by
  unfold ratSqrt
  positivity

theorem ratSqrt_sq (q : ℚ) (hq : 0 ≤ q) : ratSqrt (q * q) = q := by
  unfold ratSqrt
  rw [Rat.mul_self_num, Rat.mul_self_den]
  have hnum : 0 ≤ q.num := Rat.num_nonneg.mpr hq
  have h1 : (q.num * q.num).toNat = q.num.toNat * q.num.toNat := by
    rw [← Int.toNat_of_nonneg hnum, Int.toNat_natCast, ← Nat.cast_mul,
      Int.toNat_natCast]
  rw [h1, Nat.sqrt_eq, Nat.sqrt_eq]
  have h2 : ((q.num.toNat : ℕ) : ℚ) = ((q.num : ℤ) : ℚ) := by
    exact_mod_cast congrArg (fun z : ℤ => (z : ℚ)) (Int.toNat_of_nonneg hnum)
  rw [h2, Rat.num_div_den]

theorem sqrtFacts_ratSqrt (sin cos : ℚ → ℚ) (atan2 : ℚ → ℚ → ℚ) :
    SqrtFacts ⟨sin, cos, ratSqrt, atan2⟩ :=
  ⟨ratSqrt_nonneg, ratSqrt_sq⟩

theorem forceIter_fixed (step : Point → Point) (p : Point) (h : step p = p) :
    ∀ n, Spiral.forceIter step n p = p := by
  intro n
  induction n with
  | zero => rfl
  | succ k ih => rw [Spiral.forceIter, h, ih]

theorem forceIter_eq_iterate (step : Point → Point) :
    ∀ (n : ℕ) (p : Point), Spiral.forceIter step n p = step^[n] p := by
  intro n
  induction n with
  | zero => intro p; rfl
  | succ k ih => intro p; rw [Spiral.forceIter, ih, Function.iterate_succ_apply]

theorem sumForces_replicate (m : MathOps) (th fs : ℚ) (e p : Point) (u v : ℚ)
    (h : ∀ f : ℚ × ℚ,
      (let dx := p.x - e.x
       let dy := p.y - e.y
       let dist := m.sqrt (dx * dx + dy * dy)
       if dist < th ∧ dist > 0 then
         let force := fs / max dist 1
         (f.1 + dx / dist * force, f.2 + dy / dist * force)
       else f) = (f.1 + u, f.2 + v)) (n : ℕ) :
    Spiral.sumForces m th fs (List.replicate n e) p
      = ((n : ℚ) * u, (n : ℚ) * v) := by
  have key : ∀ (nn : ℕ) (a b : ℚ),
      List.foldl (fun (f : ℚ × ℚ) e =>
        let dx := p.x - e.x
        let dy := p.y - e.y
        let dist := m.sqrt (dx * dx + dy * dy)
        if dist < th ∧ dist > 0 then
          let force := fs / max dist 1
          (f.1 + dx / dist * force, f.2 + dy / dist * force)
        else f) (a, b) (List.replicate nn e) = (a + nn * u, b + nn * v) := by
    intro nn
    induction nn with
    | zero => intro a b; simp
    | succ k ih =>
      intro a b
      rw [List.replicate_succ, List.foldl_cons, h ⟨a, b⟩, ih]
      push_cast
      rw [Prod.mk.injEq]
      refine ⟨by ring, by ring⟩
  unfold Spiral.sumForces
  rw [key n 0 0]
  norm_num

theorem jsFindIndex_bounds {α : Type} (p : α → Bool) :
    ∀ (l : List α), (∃ x ∈ l, p x) →
      0 ≤ jsFindIndex l p ∧ jsFindIndex l p < l.length := by
  intro l
  induction l with
  | nil => rintro ⟨x, hx, _⟩; cases hx
  | cons a rest ih =>
    rintro ⟨x, hx, hpx⟩
    unfold jsFindIndex
    by_cases ha : p a = true
    · rw [if_pos ha]
      refine ⟨le_refl 0, ?_⟩
      simp only [List.length_cons]
      push_cast
      omega
    · have hxr : x ∈ rest := by
        rcases List.mem_cons.mp hx with h | h
        · subst h; exact absurd hpx ha
        · exact h
      have hrec := ih ⟨x, hxr, hpx⟩
      rw [if_neg ha]
      have hne : ¬ jsFindIndex rest p = -1 := by omega
      rw [if_neg hne]
      constructor
      · omega
      · simp only [List.length_cons]
        push_cast
        omega

/-! ## C8 — seed order-independence -/

/-- C8: `generateSeed` is the sum of the name's character codes, so it is
invariant under every permutation of the characters; being a plain function
of the name, identical names yield identical seeds regardless of invocation
order or prior calls. -/
theorem C8_seed_order_independent (s t : String) (h : s.data.Perm t.data) :
    generateSeed s = generateSeed t := by
  unfold generateSeed
  exact List.Perm.sum_eq (List.Perm.map Char.toNat h)

/-- Witness for C8 at the concrete pair `"ab"`, `"ba"`. -/
theorem C8_seed_witness : generateSeed "ab" = generateSeed "ba" :=
  C8_seed_order_independent "ab" "ba" (by decide)

/-! ## C6 — bounded termination -/

/-- C6: the retry loop of part_000 performs at most `fuel` collision tests
(`fuel` is `maxAttempts = 10` at its call site), the retry loop of
`tech-radar.tsx` draws at most `fuel` candidates (`maxAttempts = 50` at its
call site), and the force-relaxation passes are exactly the `n`-fold iterate
of their step function (`n = 50` and `n = 30` at the call sites), so
placement always terminates within the fixed budgets. -/
theorem C6_bounded_termination :
    (∀ (α : Type) (ok : α → Bool) (cand : ℕ → α) (fuel k : ℕ) (pos : α),
      V1.retryLoopSteps ok cand fuel k pos ≤ fuel)
    ∧ (∀ (cand : ℕ → Point) (existing : List Point) (minDistSq : ℚ)
        (fuel k : ℕ) (best : Point) (bestDSq : ℚ),
        TR.tryLoopSteps cand existing minDistSq fuel k best bestDSq ≤ fuel)
    ∧ (∀ (step : Point → Point) (n : ℕ) (p : Point),
        Spiral.forceIter step n p = step^[n] p) := by
  refine ⟨?_, ?_, ?_⟩
  · intro α ok cand fuel
    induction fuel with
    | zero => intro k pos; simp [V1.retryLoopSteps]
    | succ f ih =>
      intro k pos
      unfold V1.retryLoopSteps
      by_cases h : ok pos = true
      · rw [if_pos h]
        omega
      · rw [if_neg h]
        have := ih (k + 1) (cand (k + 1))
        omega
  · intro cand existing minDistSq fuel
    induction fuel with
    | zero => intro k best bestDSq; simp [TR.tryLoopSteps]
    | succ f ih =>
      intro k best bestDSq
      unfold TR.tryLoopSteps
      by_cases h1 : (!(TR.scanExisting minDistSq (cand k) existing jsMaxValue).1
          || existing.isEmpty) = true
      · rw [if_pos h1]
        omega
      · rw [if_neg h1]
        by_cases h2 : (TR.scanExisting minDistSq (cand k) existing jsMaxValue).2
            > bestDSq
        · rw [if_pos h2]
          have := ih (k + 1) (cand k)
            ((TR.scanExisting minDistSq (cand k) existing jsMaxValue).2)
          omega
        · rw [if_neg h2]
          have := ih (k + 1) best bestDSq
          omega
  · exact forceIter_eq_iterate

/-! ## Congruence of the seeded placement functions

The placement functions read an item only through its `name`, `quadrant` and
`ring` fields, so two items agreeing there are placed identically. -/

theorem calculateOptimizedPosition_congr (m : MathOps) (a b : Tech)
    (placed : List PlacedTech) (hn : a.name = b.name)
    (hq : a.quadrant = b.quadrant) (hr : a.ring = b.ring) :
    V1.calculateOptimizedPosition m a placed
      = V1.calculateOptimizedPosition m b placed := by
  obtain ⟨an, aq, ar, ad⟩ := a
  obtain ⟨bn, bq, br, bd⟩ := b
  dsimp only at hn hq hr
  subst hn; subst hq; subst hr
  rfl

theorem calculatePositionV8_congr (m : MathOps) (a b : Tech)
    (group : List Tech) (hn : a.name = b.name) (hq : a.quadrant = b.quadrant)
    (hr : a.ring = b.ring) :
    V8.calculatePosition m a group = V8.calculatePosition m b group := by
  obtain ⟨an, aq, ar, ad⟩ := a
  obtain ⟨bn, bq, br, bd⟩ := b
  dsimp only at hn hq hr
  subst hn; subst hq; subst hr
  rfl

theorem calculatePositionTR_congr (m : MathOps) (a b : PlacedTech)
    (allItems : List PlacedTech) (idx : ℕ) (hn : a.name = b.name)
    (hq : a.quadrant = b.quadrant) (hr : a.ring = b.ring) :
    TR.calculatePosition m a allItems idx
      = TR.calculatePosition m b allItems idx := by
  obtain ⟨an, aq, ar, ad, ai, ax, ay⟩ := a
  obtain ⟨bn, bq, br, bd, bi, bx, by2⟩ := b
  dsimp only at hn hq hr
  subst hn; subst hq; subst hr
  rfl

/-! ## C1 — determinism of the seeded variants (amended) -/

/-- C1 (amended): in the three seeded variants, placement is a pure function
of the item's `(name, category, level)`, the already-placed siblings and the
(embedded, fixed) configuration: items agreeing on those fields are placed
identically, whatever the interpretation of the `Math` functions.  (The
spiral variant is *not* deterministic: it draws on `Math.random`, see the
counterexample.) -/
theorem C1_seeded_placement_pure :
    (∀ (m : MathOps) (a b : Tech) (placed : List PlacedTech),
      a.name = b.name → a.quadrant = b.quadrant → a.ring = b.ring →
      V1.calculateOptimizedPosition m a placed
        = V1.calculateOptimizedPosition m b placed)
    ∧ (∀ (m : MathOps) (a b : PlacedTech) (allItems : List PlacedTech)
        (idx : ℕ), a.name = b.name → a.quadrant = b.quadrant →
        a.ring = b.ring →
        TR.calculatePosition m a allItems idx
          = TR.calculatePosition m b allItems idx)
    ∧ (∀ (m : MathOps) (a b : Tech) (group : List Tech),
        a.name = b.name → a.quadrant = b.quadrant → a.ring = b.ring →
        V8.calculatePosition m a group = V8.calculatePosition m b group) :=
  ⟨calculateOptimizedPosition_congr, calculatePositionTR_congr,
   calculatePositionV8_congr⟩

/-- Witness for C1 at two concrete items differing only in their opaque
descriptive field. -/
theorem C1_witness :
    V1.calculateOptimizedPosition mZero ⟨"x", "Tools", "adopt", "d1"⟩ []
      = V1.calculateOptimizedPosition mZero ⟨"x", "Tools", "adopt", "d2"⟩ [] :=
  C1_seeded_placement_pure.1 mZero ⟨"x", "Tools", "adopt", "d1"⟩
    ⟨"x", "Tools", "adopt", "d2"⟩ [] rfl rfl rfl

/-! ## C4 — order preservation (amended) -/

theorem positionEach_tuple (m : MathOps) :
    ∀ (techs : List Tech) (positioned : List PlacedTech) (idc : ℕ),
      (V1.positionEach m techs positioned idc).map
          (fun p => (p.name, p.quadrant, p.ring, p.descr))
        = techs.map (fun t => (t.name, t.quadrant, t.ring, t.descr)) := by
  intro techs
  induction techs with
  | nil => intro _ _; rfl
  | cons t rest ih =>
    intro positioned idc
    unfold V1.positionEach
    simp only [List.map_cons]
    rw [ih]

/-- C4 (amended): the `radar V8.tsx` layout and the part_000 seeded layout
return exactly one output item per input item, in input order, with the
input fields carried through unchanged.  (The spiral variant does not: it
emits items grouped by quadrant and ring and drops unresolvable ones, see
the counterexample.) -/
theorem C4_order_preservation :
    (∀ (m : MathOps) (items : List Tech),
      (V8.processedData m items).map
          (fun p => (p.name, p.quadrant, p.ring, p.descr))
        = items.map (fun t => (t.name, t.quadrant, t.ring, t.descr)))
    ∧ (∀ (m : MathOps) (items : List Tech),
        (V8.processedData m items).length = items.length)
    ∧ (∀ (m : MathOps) (techs : List Tech),
        (V1.calculateTechnologyPositions m techs).map
            (fun p => (p.name, p.quadrant, p.ring, p.descr))
          = techs.map (fun t => (t.name, t.quadrant, t.ring, t.descr)))
    ∧ (∀ (m : MathOps) (techs : List Tech),
        (V1.calculateTechnologyPositions m techs).length = techs.length) := by
  have hv8 : ∀ (m : MathOps) (items : List Tech),
      (V8.processedData m items).map
          (fun p => (p.name, p.quadrant, p.ring, p.descr))
        = items.map (fun t => (t.name, t.quadrant, t.ring, t.descr)) := by
    intro m items
    unfold V8.processedData
    rw [List.map_map]
    have h2 : items.enum.map Prod.snd = items := List.enum_map_snd items
    calc items.enum.map ((fun p : PlacedTech =>
            (p.name, p.quadrant, p.ring, p.descr)) ∘ _)
        = (items.enum.map Prod.snd).map
            (fun t => (t.name, t.quadrant, t.ring, t.descr)) := by
          rw [List.map_map]; rfl
      _ = items.map (fun t => (t.name, t.quadrant, t.ring, t.descr)) := by
          rw [h2]
  have hv1 : ∀ (m : MathOps) (techs : List Tech),
      (V1.calculateTechnologyPositions m techs).map
          (fun p => (p.name, p.quadrant, p.ring, p.descr))
        = techs.map (fun t => (t.name, t.quadrant, t.ring, t.descr)) := by
    intro m techs
    exact positionEach_tuple m techs [] 1
  refine ⟨hv8, ?_, hv1, ?_⟩
  · intro m items
    have := congrArg List.length (hv8 m items)
    simpa using this
  · intro m techs
    have := congrArg List.length (hv1 m techs)
    simpa using this

/-! ## C10 — duplicate names collapse in the V8 layout -/

/-- C10: in `radar V8.tsx`, two output items carrying the same name, quadrant
and ring receive exactly the same coordinates: the seed, the group, and the
`findIndex`-by-name lookup are all determined by those three strings, so
duplicate names collapse onto a single point. -/
theorem C10_duplicate_names_collapse (m : MathOps) (items : List Tech)
    (i j : ℕ) (pi2 pj2 : PlacedTech)
    (hi : (V8.processedData m items)[i]? = some pi2)
    (hj : (V8.processedData m items)[j]? = some pj2)
    (hn : pi2.name = pj2.name) (hq : pi2.quadrant = pj2.quadrant)
    (hr : pi2.ring = pj2.ring) :
    pi2.x = pj2.x ∧ pi2.y = pj2.y := by
  unfold V8.processedData at hi hj
  rw [List.getElem?_map, List.getElem?_enum] at hi
  rw [List.getElem?_map, List.getElem?_enum] at hj
  cases hti : items[i]? with
  | none => rw [hti] at hi; simp at hi
  | some ti =>
  cases htj : items[j]? with
  | none => rw [htj] at hj; simp at hj
  | some tj =>
  rw [hti] at hi
  rw [htj] at hj
  simp only [Option.map_some', Option.some.injEq] at hi hj
  subst hi
  subst hj
  dsimp only at hn hq hr ⊢
  have hx : V8.calculatePosition m ti (items.filter (fun other =>
        (other.ring == ti.ring) && (other.quadrant == ti.quadrant)))
      = V8.calculatePosition m tj (items.filter (fun other =>
        (other.ring == tj.ring) && (other.quadrant == tj.quadrant))) := by
    simp only [hn, hq, hr]
    exact calculatePositionV8_congr m ti tj _ hn hq hr
  rw [hx]
  exact ⟨rfl, rfl⟩

/-- Witness for C10: two items with equal name, quadrant and ring (differing
in the opaque field) end at identical coordinates. -/
theorem C10_witness :
    (⟨"T", "Tools", "Adopt", "x", 0, 300, 300⟩ : PlacedTech).x
        = (⟨"T", "Tools", "Adopt", "y", 1, 300, 300⟩ : PlacedTech).x
      ∧ (⟨"T", "Tools", "Adopt", "x", 0, 300, 300⟩ : PlacedTech).y
        = (⟨"T", "Tools", "Adopt", "y", 1, 300, 300⟩ : PlacedTech).y := by
  refine C10_duplicate_names_collapse mZero
    [⟨"T", "Tools", "Adopt", "x"⟩, ⟨"T", "Tools", "Adopt", "y"⟩] 0 1 _ _ ?_ ?_
    rfl rfl rfl
  · norm_num +decide [V8.processedData, V8.calculatePosition, V8.polarPosition,
      V8.findQuadrant, V8.findRing, V8.quadrants, V8.rings, V8.minRadiusOf,
      mZero, jsFindIndex, seededRandom, jsFrac, List.enum, List.enumFrom,
      List.find?, piQ, V8.maxRadius,
      show normalizeQuadrantKey "Tools" = "tools" from rfl,
      show generateSeed "T" = 84 from rfl]
  · norm_num +decide [V8.processedData, V8.calculatePosition, V8.polarPosition,
      V8.findQuadrant, V8.findRing, V8.quadrants, V8.rings, V8.minRadiusOf,
      mZero, jsFindIndex, seededRandom, jsFrac, List.enum, List.enumFrom,
      List.find?, piQ, V8.maxRadius,
      show normalizeQuadrantKey "Tools" = "tools" from rfl,
      show generateSeed "T" = 84 from rfl]

/-! ## C5 — graceful handling of unresolvable items -/

theorem positionEach_spec (m : MathOps) :
    ∀ (techs : List Tech) (positioned : List PlacedTech) (idc k : ℕ)
      (p : PlacedTech) (t : Tech),
      (V1.positionEach m techs positioned idc)[k]? = some p →
      techs[k]? = some t →
      p.name = t.name ∧ p.quadrant = t.quadrant ∧ p.ring = t.ring ∧
      ∃ group, p.x = (V1.calculateOptimizedPosition m t group).x ∧
        p.y = (V1.calculateOptimizedPosition m t group).y := by
  intro techs
  induction techs with
  | nil =>
    intro _ _ k p t hp _
    simp [V1.positionEach] at hp
  | cons tech rest ih =>
    intro positioned idc k p t hp ht
    unfold V1.positionEach at hp
    cases k with
    | zero =>
      simp only [List.getElem?_cons_zero, Option.some.injEq] at hp ht
      subst hp
      subst ht
      exact ⟨rfl, rfl, rfl, positioned.filter (V1.sameGroup tech), rfl, rfl⟩
    | succ k2 =>
      simp only [List.getElem?_cons_succ] at hp ht
      exact ih _ _ k2 p t hp ht

/-- C5: an item whose quadrant key or ring key resolves to nothing is not an
error: `calculateOptimizedPosition` (part_000) and `calculatePosition`
(`tech-radar.tsx`) return the configured centre, and the part_000 layout still
emits the item, at the centre, in its input position. -/
theorem C5_unresolved_graceful :
    (∀ (m : MathOps) (tech : Tech) (placed : List PlacedTech),
      V1.quadrantMap (normalizeQuadrantKey tech.quadrant) = none
        ∨ V1.ringMap (jsToLower tech.ring) = none →
      V1.calculateOptimizedPosition m tech placed = ⟨300, 300⟩)
    ∧ (∀ (m : MathOps) (item : PlacedTech) (allItems : List PlacedTech)
        (idx : ℕ),
        TR.findQuadrant item = none ∨ TR.findRing item = none →
        TR.calculatePosition m item allItems idx = ⟨200, 200⟩)
    ∧ (∀ (m : MathOps) (techs : List Tech) (k : ℕ) (p : PlacedTech) (t : Tech),
        (V1.calculateTechnologyPositions m techs)[k]? = some p →
        techs[k]? = some t →
        (V1.quadrantMap (normalizeQuadrantKey t.quadrant) = none
          ∨ V1.ringMap (jsToLower t.ring) = none) →
        p.name = t.name ∧ p.x = 300 ∧ p.y = 300) := by
  have hv1 : ∀ (m : MathOps) (tech : Tech) (placed : List PlacedTech),
      V1.quadrantMap (normalizeQuadrantKey tech.quadrant) = none
        ∨ V1.ringMap (jsToLower tech.ring) = none →
      V1.calculateOptimizedPosition m tech placed = ⟨300, 300⟩ := by
    intro m tech placed h
    unfold V1.calculateOptimizedPosition
    rcases h with h | h
    · rw [h]
    · rw [h]
      cases V1.quadrantMap (normalizeQuadrantKey tech.quadrant) <;> rfl
  refine ⟨hv1, ?_, ?_⟩
  · intro m item allItems idx h
    unfold TR.calculatePosition
    rcases h with h | h
    · rw [h]
    · rw [h]
      cases TR.findQuadrant item <;> rfl
  · intro m techs k p t hp ht h
    obtain ⟨hname, _, _, group, hx, hy⟩ :=
      positionEach_spec m techs [] 1 k p t hp ht
    rw [hv1 m t group h] at hx hy
    exact ⟨hname, hx, hy⟩

/-- Witness for C5 at the concrete item `⟨"t", "unknown-xyz", "adopt"⟩`. -/
theorem C5_witness :
    V1.calculateOptimizedPosition mZero ceUnknownTech [] = ⟨300, 300⟩
    ∧ TR.calculatePosition mZero ⟨"t", "unknown-xyz", "adopt", "", 0, 200, 200⟩
        [] 0 = ⟨200, 200⟩
    ∧ ((⟨"t", "unknown-xyz", "adopt", "", 1, 300, 300⟩ : PlacedTech).name
          = ceUnknownTech.name
        ∧ (⟨"t", "unknown-xyz", "adopt", "", 1, 300, 300⟩ : PlacedTech).x = 300
        ∧ (⟨"t", "unknown-xyz", "adopt", "", 1, 300, 300⟩ : PlacedTech).y = 300) := by
  refine ⟨C5_unresolved_graceful.1 mZero ceUnknownTech [] (Or.inl rfl),
    C5_unresolved_graceful.2.1 mZero _ [] 0 (Or.inl rfl),
    C5_unresolved_graceful.2.2 mZero [ceUnknownTech] 0 _ ceUnknownTech ?_ rfl
      (Or.inl rfl)⟩
  norm_num +decide [V1.calculateTechnologyPositions, V1.positionEach,
    V1.calculateOptimizedPosition, V1.quadrantMap, V1.sameGroup, ceUnknownTech,
    show normalizeQuadrantKey "unknown-xyz" = "unknown-xyz" from rfl]

/-! ## C2 — the collision-resolver loops -/

theorem scanExisting_false_iff (d : ℚ) (c : Point) :
    ∀ (l : List Point) (acc : ℚ),
      (TR.scanExisting d c l acc).1 = false ↔ ∀ s ∈ l, d ≤ distSq c s := by
  intro l
  induction l with
  | nil => intro acc; simp [TR.scanExisting]
  | cons s rest ih =>
    intro acc
    unfold TR.scanExisting
    by_cases hd : distSq c s < d
    · rw [if_pos hd]
      simp only [List.mem_cons]
      constructor
      · intro h
        exact absurd h (by simp)
      · intro h
        exact absurd (h s (Or.inl rfl)) (not_le.mpr hd)
    · rw [if_neg hd]
      rw [ih (min acc (distSq c s))]
      simp only [List.mem_cons]
      constructor
      · intro h x hx
        rcases hx with hx | hx
        · subst hx; exact not_lt.mp hd
        · exact h x hx
      · intro h x hx
        exact h x (Or.inr hx)

theorem clears_iff_scan_false (d : ℚ) (c : Point) (l : List Point) (acc : ℚ) :
    Clears l d c ↔ (TR.scanExisting d c l acc).1 = false :=
  (scanExisting_false_iff d c l acc).symm

/-- In `tech-radar.tsx`'s loop, the first candidate clearing the threshold
against every existing position is returned, provided all earlier candidates
fail. -/
theorem tryLoop_first_accept (cand : ℕ → Point) (existing : List Point)
    (d : ℚ) (hne : existing ≠ []) :
    ∀ (fuel j k : ℕ) (best : Point) (bestD : ℚ), j < fuel →
      Clears existing d (cand (k + j)) →
      (∀ i, i < j → ¬ Clears existing d (cand (k + i))) →
      TR.tryLoop cand existing d fuel k best bestD = cand (k + j) := by
  intro fuel
  induction fuel with
  | zero =>
    intro j k best bestD hj
    exact absurd hj (Nat.not_lt_zero j)
  | succ f ih =>
    intro j k best bestD hj hcl hmin
    have hempty : existing.isEmpty = false := by
      cases existing with
      | nil => exact absurd rfl hne
      | cons a l => rfl
    unfold TR.tryLoop
    dsimp only
    cases j with
    | zero =>
      have hscan : (TR.scanExisting d (cand k) existing jsMaxValue).1 = false := by
        rw [← clears_iff_scan_false]
        simpa using hcl
      rw [hscan]
      simp
    | succ j2 =>
      have h0 : ¬ Clears existing d (cand k) := by
        have := hmin 0 (Nat.succ_pos j2)
        simpa using this
      have hscan : (TR.scanExisting d (cand k) existing jsMaxValue).1 = true := by
        rcases Bool.eq_false_or_eq_true
            (TR.scanExisting d (cand k) existing jsMaxValue).1 with h | h
        · exact h
        · exact absurd ((clears_iff_scan_false d (cand k) existing
            jsMaxValue).mpr h) h0
      rw [hscan, hempty]
      have harg : k + 1 + j2 = k + (j2 + 1) := by omega
      have hcl2 : Clears existing d (cand (k + 1 + j2)) := by rw [harg]; exact hcl
      have hmin2 : ∀ i, i < j2 → ¬ Clears existing d (cand (k + 1 + i)) := by
        intro i hi
        have := hmin (i + 1) (by omega)
        have harg2 : k + 1 + i = k + (i + 1) := by omega
        rw [harg2]
        exact this
      have hj2 : j2 < f := by omega
      by_cases hcmp : (TR.scanExisting d (cand k) existing jsMaxValue).2 > bestD
      · rw [if_neg (by simp), if_pos hcmp]
        rw [ih j2 (k + 1) (cand k) _ hj2 hcl2 hmin2, harg]
      · rw [if_neg (by simp), if_neg hcmp]
        rw [ih j2 (k + 1) best bestD hj2 hcl2 hmin2, harg]

/-- In `tech-radar.tsx`'s loop, when every candidate fails the threshold, the
result is the initial best (if no scan ever improved on `bestD`) or the
candidate whose truncated scan minimum is maximal. -/
theorem tryLoop_exhaust (cand : ℕ → Point) (existing : List Point) (d : ℚ)
    (hne : existing ≠ []) (hall : ∀ i2, ¬ Clears existing d (cand i2)) :
    ∀ (fuel k : ℕ) (best : Point) (bestD : ℚ),
      (TR.tryLoop cand existing d fuel k best bestD = best
          ∧ ∀ j, j < fuel → truncMinDistSq d (cand (k + j)) existing ≤ bestD)
        ∨ (∃ j, j < fuel ∧ TR.tryLoop cand existing d fuel k best bestD = cand (k + j)
            ∧ bestD < truncMinDistSq d (cand (k + j)) existing
            ∧ ∀ i2, i2 < fuel → truncMinDistSq d (cand (k + i2)) existing
                ≤ truncMinDistSq d (cand (k + j)) existing) := by
  have hempty : existing.isEmpty = false := by
    cases existing with
    | nil => exact absurd rfl hne
    | cons a l => rfl
  intro fuel
  induction fuel with
  | zero =>
    intro k best bestD
    left
    exact ⟨rfl, fun j hj => absurd hj (Nat.not_lt_zero j)⟩
  | succ f ih =>
    intro k best bestD
    have hscan : (TR.scanExisting d (cand k) existing jsMaxValue).1 = true := by
      rcases Bool.eq_false_or_eq_true
          (TR.scanExisting d (cand k) existing jsMaxValue).1 with h | h
      · exact h
      · exact absurd ((clears_iff_scan_false d (cand k) existing
          jsMaxValue).mpr h) (hall k)
    unfold TR.tryLoop
    dsimp only
    rw [hscan, hempty, if_neg (by simp)]
    have htr : (TR.scanExisting d (cand k) existing jsMaxValue).2
        = truncMinDistSq d (cand k) existing := rfl
    by_cases hcmp : (TR.scanExisting d (cand k) existing jsMaxValue).2 > bestD
    · rw [if_pos hcmp]
      rcases ih (k + 1) (cand k)
          ((TR.scanExisting d (cand k) existing jsMaxValue).2) with
        ⟨heq, hbnd⟩ | ⟨j, hj, heq, hlt, hmax⟩
      · right
        refine ⟨0, Nat.succ_pos f, by simpa using heq, ?_, ?_⟩
        · rw [htr] at hcmp
          simpa using hcmp
        · intro i2 hi2
          cases i2 with
          | zero => simp
          | succ i3 =>
            have := hbnd i3 (by omega)
            rw [htr] at this
            have harg : k + 1 + i3 = k + (i3 + 1) := by omega
            rw [harg] at this
            simpa using this
      · right
        refine ⟨j + 1, by omega, ?_, ?_, ?_⟩
        · have harg : k + 1 + j = k + (j + 1) := by omega
          rw [harg] at heq
          exact heq
        · have harg : k + 1 + j = k + (j + 1) := by omega
          rw [harg] at hlt
          rw [htr] at hcmp
          exact lt_trans hcmp hlt
        · intro i2 hi2
          cases i2 with
          | zero =>
            have harg : k + 1 + j = k + (j + 1) := by omega
            rw [harg] at hlt
            rw [htr] at hlt
            simpa using le_of_lt hlt
          | succ i3 =>
            have := hmax i3 (by omega)
            have harg : k + 1 + i3 = k + (i3 + 1) := by omega
            have harg2 : k + 1 + j = k + (j + 1) := by omega
            rw [harg, harg2] at this
            exact this
    · rw [if_neg hcmp]
      rcases ih (k + 1) best bestD with ⟨heq, hbnd⟩ | ⟨j, hj, heq, hlt, hmax⟩
      · left
        refine ⟨heq, ?_⟩
        intro j hjf
        cases j with
        | zero =>
          rw [htr] at hcmp
          simpa using not_lt.mp hcmp
        | succ j2 =>
          have := hbnd j2 (by omega)
          have harg : k + 1 + j2 = k + (j2 + 1) := by omega
          rw [harg] at this
          exact this
      · right
        refine ⟨j + 1, by omega, ?_, ?_, ?_⟩
        · have harg : k + 1 + j = k + (j + 1) := by omega
          rw [harg] at heq
          exact heq
        · have harg : k + 1 + j = k + (j + 1) := by omega
          rw [harg] at hlt
          exact hlt
        · intro i2 hi2
          cases i2 with
          | zero =>
            have harg : k + 1 + j = k + (j + 1) := by omega
            rw [harg] at hlt
            rw [htr] at hcmp
            exact le_trans (not_lt.mp hcmp) (le_of_lt hlt)
          | succ i3 =>
            have := hmax i3 (by omega)
            have harg : k + 1 + i3 = k + (i3 + 1) := by omega
            have harg2 : k + 1 + j = k + (j + 1) := by omega
            rw [harg, harg2] at this
            exact this

/-- The part_000 retry loop, when every candidate collides, walks through the
whole budget and returns the final, freshly redrawn candidate. -/
theorem retryLoop_exhaust {α : Type} (ok : α → Bool) (cand : ℕ → α)
    (hall : ∀ j, ok (cand j) = false) :
    ∀ (fuel k : ℕ), V1.retryLoop ok cand fuel k (cand k) = cand (k + fuel) := by
  intro fuel
  induction fuel with
  | zero => intro k; rfl
  | succ f ih =>
    intro k
    unfold V1.retryLoop
    rw [hall k]
    rw [if_neg (by simp)]
    rw [ih (k + 1)]
    congr 1
    omega

theorem v1Ok_eq_false_iff (siblings : List Point) (d : ℚ) (p : Point) :
    (!siblings.any (fun s => decide (distSq p s < d))) = false
      ↔ ¬ Clears siblings d p := by
  simp [Clears, List.any_eq_true, not_le]

/-- C2 (amended): the `tech-radar.tsx` loop accepts candidates exactly as the
claim describes — immediately when there are no existing positions, and
otherwise the first candidate at squared distance at least `minDistSq` from
every existing position; but on exhaustion it returns the best candidate as
judged by the *truncated* scan minimum (the scan stops at the first position
closer than the threshold), falling back to the initial centre value when no
scan beat the initial `bestDistance = 0`; and the part_000 loop does no best
tracking at all — on exhaustion it returns one candidate beyond the budget,
never tested against the siblings.  Neither loop can fail. -/
theorem C2_resolver_loops :
    (∀ (cand : ℕ → Point) (d : ℚ) (fuel k : ℕ) (best : Point) (bestD : ℚ),
      0 < fuel → TR.tryLoop cand [] d fuel k best bestD = cand k)
    ∧ (∀ (cand : ℕ → Point) (existing : List Point) (d : ℚ)
        (maxA j : ℕ) (b0 : Point), existing ≠ [] → j < maxA →
        Clears existing d (cand j) →
        (∀ i, i < j → ¬ Clears existing d (cand i)) →
        TR.tryLoop cand existing d maxA 0 b0 0 = cand j)
    ∧ (∀ (cand : ℕ → Point) (existing : List Point) (d : ℚ)
        (maxA : ℕ) (b0 : Point), existing ≠ [] →
        (∀ i2, ¬ Clears existing d (cand i2)) →
        (TR.tryLoop cand existing d maxA 0 b0 0 = b0
            ∧ ∀ j, j < maxA → truncMinDistSq d (cand j) existing ≤ 0)
          ∨ (∃ j, j < maxA ∧ TR.tryLoop cand existing d maxA 0 b0 0 = cand j
              ∧ 0 < truncMinDistSq d (cand j) existing
              ∧ ∀ i2, i2 < maxA → truncMinDistSq d (cand i2) existing
                  ≤ truncMinDistSq d (cand j) existing))
    ∧ (∀ (cand : ℕ → Point) (siblings : List Point) (d : ℚ) (maxA : ℕ),
        (∀ i2, ¬ Clears siblings d (cand i2)) →
        v1PlaceLoop cand siblings d maxA = cand maxA) := by
  refine ⟨?_, ?_, ?_, ?_⟩
  · intro cand d fuel k best bestD hf
    cases fuel with
    | zero => exact absurd hf (by omega)
    | succ f =>
      unfold TR.tryLoop
      rw [if_pos (by simp [TR.scanExisting])]
  · intro cand existing d maxA j b0 hne hj hcl hmin
    have := tryLoop_first_accept cand existing d hne maxA j 0 b0 0 hj
      (by simpa using hcl) (by simpa using hmin)
    simpa using this
  · intro cand existing d maxA b0 hne hall
    have := tryLoop_exhaust cand existing d hne hall maxA 0 b0 0
    simpa using this
  · intro cand siblings d maxA hall
    unfold v1PlaceLoop
    have hall2 : ∀ j,
        (!siblings.any (fun s => decide (distSq (cand j) s < d))) = false :=
      fun j => (v1Ok_eq_false_iff siblings d (cand j)).mpr (hall j)
    have := retryLoop_exhaust
      (fun p => !siblings.any (fun s => decide (distSq p s < d))) cand hall2 maxA 0
    simpa using this

/-- Witness for C2: a first-accept run of the `tech-radar.tsx` loop and an
exhausted run of the part_000 loop at concrete data. -/
theorem C2_witness :
    TR.tryLoop (fun k => ⟨(k : ℚ), 0⟩) [⟨0, 0⟩] 1 50 0 ⟨200, 200⟩ 0 = ⟨1, 0⟩
    ∧ v1PlaceLoop (fun _ => ⟨0, 0⟩) [⟨0, 0⟩] 1 10 = ⟨0, 0⟩ := by
  constructor
  · have := C2_resolver_loops.2.1 (fun k => ⟨(k : ℚ), 0⟩) [⟨0, 0⟩] 1 50 1
      ⟨200, 200⟩ (by simp) (by norm_num)
      (by intro s hs; simp at hs; subst hs; norm_num [distSq])
      (by intro i hi
          interval_cases i
          simp [Clears, distSq])
    simpa using this
  · exact C2_resolver_loops.2.2.2 (fun _ => ⟨0, 0⟩) [⟨0, 0⟩] 1 10
      (by intro i2; simp [Clears, distSq])

/-- Counterexample for C2: with a candidate on `(k/10, 0)` for attempt `k`, a
single sibling at the origin, `minDistance = 5` (squared `25`) and
`maxAttempts = 10`, every candidate collides; the claim's resolver returns
the best-separated candidate of attempts `0 … 9`, namely `(9/10, 0)`, but the
part_000 loop returns the eleventh, untested candidate `(1, 0)`. -/
theorem C2_counterexample :
    v1PlaceLoop ceResolverCand ceResolverSibs (5 ^ 2) 10 = ⟨1, 0⟩
    ∧ claimPlace ceResolverCand ceResolverSibs (5 ^ 2) 10 = ⟨9/10, 0⟩
    ∧ (⟨1, 0⟩ : Point) ≠ (⟨9/10, 0⟩ : Point) := by
  refine ⟨?_, ?_, ?_⟩
  · norm_num [v1PlaceLoop, V1.retryLoop, ceResolverCand, ceResolverSibs, distSq]
  · norm_num [claimPlace, claimPlaceAux, fullMinDistSq, ceResolverCand,
      ceResolverSibs, distSq, jsMaxValue, List.foldl]
  · intro h
    have := congrArg Point.x h
    norm_num at this

/-! ## C3 — containment -/

theorem clampMem (a b x : ℚ) (h : a ≤ b) :
    a ≤ max a (min b x) ∧ max a (min b x) ≤ b :=
  ⟨le_max_left a _, max_le h (min_le_left b x)⟩

theorem sinCosBounded_mZero : SinCosBounded mZero := by
  constructor <;> intro q <;> norm_num [mZero]

/-- C3 (amended): in `radar V8.tsx`, the *polar* stage of `calculatePosition`
is contained as claimed — for a resolved quadrant and ring the computed angle
stays within the sector shrunk by a `15 %` angular margin on each side, and
the computed radius is clamped into the band
`[minRadius + 3, ring.radius - 15 - 3]`; but the subsequently added cartesian
jitter moves each coordinate by up to `4` more, so the *final* point is only
guaranteed within `4` per axis of a point of the shrunk sector/band, not
within the shrunk region itself. -/
theorem C3_containment (m : MathOps) (hb : SinCosBounded m)
    (item : Tech) (group : List Tech) (q : V8.QuadCfg) (ri : ℕ)
    (ring : V8.RingCfg)
    (hq : V8.findQuadrant item = some q)
    (hr : V8.findRing item = some (ri, ring))
    (hmem : ∃ x ∈ group, (x.name == item.name) = true) :
    (q.startAngle * piQ / 180 + piQ / 2 * (3/20)
        ≤ (V8.polarPosition m item group q ri ring).1
      ∧ (V8.polarPosition m item group q ri ring).1
        ≤ q.startAngle * piQ / 180 + piQ / 2 * (17/20))
    ∧ (V8.minRadiusOf ri + 3 ≤ (V8.polarPosition m item group q ri ring).2
      ∧ (V8.polarPosition m item group q ri ring).2 ≤ ring.radius - 15 - 3)
    ∧ (|(V8.calculatePosition m item group).x
          - (300 + (V8.polarPosition m item group q ri ring).2
              * m.cos ((V8.polarPosition m item group q ri ring).1))| ≤ 4
      ∧ |(V8.calculatePosition m item group).y
          - (300 + (V8.polarPosition m item group q ri ring).2
              * m.sin ((V8.polarPosition m item group q ri ring).1))| ≤ 4) := by
  have hpi : (0:ℚ) < piQ := by norm_num [piQ]
  have hrange : q.endAngle = q.startAngle + 90 := by
    have hqmem := List.mem_of_find?_eq_some hq
    simp [V8.quadrants] at hqmem
    rcases hqmem with h | h | h | h <;> (subst h; norm_num)
  have hringle : V8.minRadiusOf ri + 3 ≤ ring.radius - 15 - 3 := by
    have hrmem := List.mem_of_find?_eq_some hr
    simp [V8.rings, V8.maxRadius, List.enum, List.enumFrom] at hrmem
    rcases hrmem with ⟨h1, h2⟩ | ⟨h1, h2⟩ | ⟨h1, h2⟩ | ⟨h1, h2⟩ <;>
      (subst h1; subst h2;
       norm_num [V8.minRadiusOf, V8.rings, V8.maxRadius])
  have hs1 := abs_le.mp (hb.1 ((generateSeed item.name : ℚ) * 0.1))
  refine ⟨?_, ?_, ?_⟩
  · unfold V8.polarPosition
    dsimp only
    rw [hrange]
    have hcond : ¬((q.startAngle + 90) * piQ / 180
        - q.startAngle * piQ / 180 ≤ 0) := by
      push_neg
      linarith [hpi]
    rw [if_neg hcond]
    have hrw : (q.startAngle + 90) * piQ / 180 - q.startAngle * piQ / 180
        = piQ / 2 := by ring
    rw [hrw]
    by_cases hone : group.length = 1
    · rw [if_pos hone]
      constructor
      · linarith [mul_nonneg (show (0:ℚ) ≤ 1
            + m.sin ((generateSeed item.name : ℚ) * 0.1) by linarith [hs1.1])
          hpi.le, hpi.le]
      · linarith [mul_nonneg (show (0:ℚ) ≤ 1
            - m.sin ((generateSeed item.name : ℚ) * 0.1) by linarith [hs1.2])
          hpi.le, hpi.le]
    · rw [if_neg hone]
      have hne : group ≠ [] := by
        rcases hmem with ⟨x, hx, _⟩
        intro h
        subst h
        cases hx
      have hlen : 0 < group.length := List.length_pos.mpr hne
      have hidx := jsFindIndex_bounds (fun i => i.name == item.name) group hmem
      have hnQ : (0:ℚ) < (group.length : ℚ) := by exact_mod_cast hlen
      have hidx0 : (0:ℚ) ≤ ((jsFindIndex group
          (fun i => i.name == item.name) : ℤ) : ℚ) := by
        exact_mod_cast hidx.1
      have hidx1 : ((jsFindIndex group (fun i => i.name == item.name) : ℤ) : ℚ)
          ≤ (group.length : ℚ) - 1 := by
        have h2 := hidx.2
        have h3 : jsFindIndex group (fun i => i.name == item.name)
            ≤ (group.length : ℤ) - 1 := by omega
        exact_mod_cast h3
      have hstep : (0:ℚ) < piQ / 2 * 0.7 / (group.length : ℚ) := by
        apply div_pos _ hnQ
        nlinarith [hpi]
      have hns : (group.length : ℚ) * (piQ / 2 * 0.7 / (group.length : ℚ))
          = piQ / 2 * 0.7 := by
        field_simp
        ring
      constructor
      · linarith [mul_nonneg hidx0 hstep.le,
          mul_nonneg (show (0:ℚ) ≤ 1
            + m.sin ((generateSeed item.name : ℚ) * 0.1) by linarith [hs1.1])
            hstep.le, hstep.le]
      · linarith [mul_nonneg (show (0:ℚ) ≤ (group.length : ℚ) - 1
            - ((jsFindIndex group (fun i => i.name == item.name) : ℤ) : ℚ)
            by linarith [hidx1]) hstep.le,
          mul_nonneg (show (0:ℚ) ≤ 1
            - m.sin ((generateSeed item.name : ℚ) * 0.1) by linarith [hs1.2])
            hstep.le, hstep.le, hns]
  · unfold V8.polarPosition
    dsimp only
    exact clampMem _ _ _ hringle
  · have hs2 := abs_le.mp (hb.1 ((generateSeed item.name : ℚ) * 0.2))
    have hs3 := abs_le.mp (hb.1 ((generateSeed item.name : ℚ) * 0.3))
    unfold V8.calculatePosition
    rw [hq, hr]
    dsimp only
    constructor
    · rw [abs_le]
      constructor <;> linarith [hs2.1, hs2.2]
    · rw [abs_le]
      constructor <;> linarith [hs3.1, hs3.2]

/-- Witness for C3: the band containment of the polar stage at a concrete
item, group, quadrant and ring. -/
theorem C3_witness :
    V8.minRadiusOf 0 + 3
        ≤ (V8.polarPosition mZero ceJitterItem [ceJitterItem]
            ⟨"Languages & Frameworks", "languagesframeworks", 0, 90⟩ 0
            ⟨"Adopt", "ADOPT", V8.maxRadius * 0.25⟩).2
    ∧ (V8.polarPosition mZero ceJitterItem [ceJitterItem]
            ⟨"Languages & Frameworks", "languagesframeworks", 0, 90⟩ 0
            ⟨"Adopt", "ADOPT", V8.maxRadius * 0.25⟩).2
        ≤ V8.maxRadius * 0.25 - 15 - 3 :=
  (C3_containment mZero sinCosBounded_mZero ceJitterItem [ceJitterItem]
    ⟨"Languages & Frameworks", "languagesframeworks", 0, 90⟩ 0
    ⟨"Adopt", "ADOPT", V8.maxRadius * 0.25⟩
    rfl rfl ⟨ceJitterItem, by simp, by simp⟩).2.1

set_option maxHeartbeats 1600000 in
/-- Counterexample for C3 as stated: for the single item `"A"` in
`Languages & Frameworks / Adopt`, with trigonometric values matching the true
ones to two decimals, the final output point of `radar V8.tsx` lies at
squared distance `2691.56 > 50 ^ 2` from the centre — outside even the
*unshrunk* outer band boundary `ring.radius - 15 = 50` of its ring, because
the cartesian jitter is applied after the radial clamp. -/
theorem C3_counterexample :
    V8.processedData mJitter [ceJitterItem]
      = [⟨"A", "Languages & Frameworks", "Adopt", "", 0, 1708/5, 331⟩]
    ∧ V8.findRing ceJitterItem = some (0, ⟨"Adopt", "ADOPT", V8.maxRadius * 0.25⟩)
    ∧ V8.maxRadius * 0.25 - 15 = 50
    ∧ (50:ℚ) ^ 2 < ((1708/5 : ℚ) - 300) ^ 2 + ((331:ℚ) - 300) ^ 2 := by
  refine ⟨?_, rfl, by norm_num [V8.maxRadius], by norm_num⟩
  norm_num +decide [V8.processedData, V8.calculatePosition, V8.polarPosition,
    V8.findQuadrant, V8.findRing, V8.quadrants, V8.rings, V8.maxRadius,
    V8.minRadiusOf, mJitter, ceJitterItem, ceJitterAngle, jsFindIndex,
    generateSeed, piQ, List.enum, List.enumFrom, Point.mk.injEq,
    show Char.toNat 'A' = 65 from rfl]

/-! ## C9 — the single-item edge case -/

/-- Distance bounds for a point `r·(c,s) + 4·(u,v)` on a clamped radius with
unit direction and bounded jitter. -/
theorem bandBounds (r c s u v lo hi : ℚ)
    (hc1 : -1 ≤ c) (hc2 : c ≤ 1) (hs1 : -1 ≤ s) (hs2 : s ≤ 1)
    (hu1 : -1 ≤ u) (hu2 : u ≤ 1) (hv1 : -1 ≤ v) (hv2 : v ≤ 1)
    (hlo : lo ≤ r) (hhi : r ≤ hi) (h16 : 16 ≤ lo) :
    lo ^ 2 - 16 * lo
        ≤ r ^ 2 + 2 * r * (c * (u * 4) + s * (v * 4))
          + ((u * 4) ^ 2 + (v * 4) ^ 2)
    ∧ r ^ 2 + 2 * r * (c * (u * 4) + s * (v * 4))
          + ((u * 4) ^ 2 + (v * 4) ^ 2)
        ≤ hi ^ 2 + 16 * hi + 32 := by
  have hcu : -1 ≤ c * u := by
    nlinarith [mul_nonneg (show (0:ℚ) ≤ 1 + c by linarith)
        (show (0:ℚ) ≤ 1 + u by linarith),
      mul_nonneg (show (0:ℚ) ≤ 1 - c by linarith)
        (show (0:ℚ) ≤ 1 - u by linarith)]
  have hcu2 : c * u ≤ 1 := by
    nlinarith [mul_nonneg (show (0:ℚ) ≤ 1 + c by linarith)
        (show (0:ℚ) ≤ 1 - u by linarith),
      mul_nonneg (show (0:ℚ) ≤ 1 - c by linarith)
        (show (0:ℚ) ≤ 1 + u by linarith)]
  have hsv : -1 ≤ s * v := by
    nlinarith [mul_nonneg (show (0:ℚ) ≤ 1 + s by linarith)
        (show (0:ℚ) ≤ 1 + v by linarith),
      mul_nonneg (show (0:ℚ) ≤ 1 - s by linarith)
        (show (0:ℚ) ≤ 1 - v by linarith)]
  have hsv2 : s * v ≤ 1 := by
    nlinarith [mul_nonneg (show (0:ℚ) ≤ 1 + s by linarith)
        (show (0:ℚ) ≤ 1 - v by linarith),
      mul_nonneg (show (0:ℚ) ≤ 1 - s by linarith)
        (show (0:ℚ) ≤ 1 + v by linarith)]
  have hr0 : (0:ℚ) ≤ r := by linarith
  have hmixlo : 0 ≤ r * (2 + (c * u + s * v)) := mul_nonneg hr0 (by linarith)
  have hmixhi : 0 ≤ r * (2 - (c * u + s * v)) := mul_nonneg hr0 (by linarith)
  have hmono : 0 ≤ (r - lo) * (r + lo - 16) :=
    mul_nonneg (by linarith) (by linarith)
  have hmono2 : 0 ≤ (hi - r) * (r + hi + 16) :=
    mul_nonneg (by linarith) (by linarith)
  constructor
  · nlinarith [sq_nonneg u, sq_nonneg v, hmixlo, hmono]
  · nlinarith [hmixhi, hmono2,
      mul_nonneg (show (0:ℚ) ≤ 1 - u by linarith)
        (show (0:ℚ) ≤ 1 + u by linarith),
      mul_nonneg (show (0:ℚ) ≤ 1 - v by linarith)
        (show (0:ℚ) ≤ 1 + v by linarith)]

theorem sinCosBounded_mSingle : SinCosBounded mSingle := by
  constructor <;> intro q <;>
    (simp only [mSingle]; split_ifs <;> rw [abs_le] <;> constructor <;>
      norm_num)

/-- Sign bounds for the coordinates of a jittered point on a ray with a
half-unit direction bound. -/
theorem sectorSign (r c u : ℚ) (hr : 28 ≤ r) (hu1 : -1 ≤ u) (hu2 : u ≤ 1) :
    (c ≤ -(1/2) → 300 + r * c + (u * 0.5 + 0.5 - 0.5) * 8 < 300)
    ∧ (1/2 ≤ c → 300 < 300 + r * c + (u * 0.5 + 0.5 - 0.5) * 8) := by
  constructor
  · intro h
    nlinarith [mul_nonneg (show (0:ℚ) ≤ r by linarith)
      (show (0:ℚ) ≤ -(1/2) - c by linarith)]
  · intro h
    nlinarith [mul_nonneg (show (0:ℚ) ≤ r by linarith)
      (show (0:ℚ) ≤ c - 1/2 by linarith)]

theorem sectorStrict_techniques (p : Point) :
    sectorStrict "techniques" p ↔ p.x < 300 ∧ p.y < 300 := by
  unfold sectorStrict
  norm_num +decide

theorem sectorStrict_tools (p : Point) :
    sectorStrict "tools" p ↔ 300 < p.x ∧ p.y < 300 := by
  unfold sectorStrict
  norm_num +decide

theorem sectorStrict_platforms (p : Point) :
    sectorStrict "platforms" p ↔ p.x < 300 ∧ 300 < p.y := by
  unfold sectorStrict
  norm_num +decide

theorem sectorStrict_lf (p : Point) :
    sectorStrict "languagesframeworks" p ↔ 300 < p.x ∧ 300 < p.y := by
  unfold sectorStrict
  norm_num +decide

theorem unitCircle_mSingle : UnitCircle mSingle := by
  intro q
  simp only [mSingle]
  split_ifs <;> norm_num

theorem trigWindow_mSingle : TrigWindow mSingle := by
  have hpi : (0:ℚ) < piQ := by norm_num [piQ]
  refine ⟨?_, ?_, ?_, ?_⟩
  · intro q h1 h2
    constructor <;> (simp only [mSingle]; rw [if_pos ⟨h1, h2⟩]; norm_num)
  · intro q h1 h2
    have hn1 : ¬(piQ * (7/40) ≤ q ∧ q ≤ piQ * (13/40)) := by
      rintro ⟨-, hc⟩
      linarith [hpi, h1, hc]
    constructor <;>
      (simp only [mSingle]; rw [if_neg hn1, if_pos ⟨h1, h2⟩]; norm_num)
  · intro q h1 h2
    have hn1 : ¬(piQ * (7/40) ≤ q ∧ q ≤ piQ * (13/40)) := by
      rintro ⟨-, hc⟩
      linarith [hpi, h1, hc]
    have hn2 : ¬(piQ * (27/40) ≤ q ∧ q ≤ piQ * (33/40)) := by
      rintro ⟨-, hc⟩
      linarith [hpi, h1, hc]
    constructor <;>
      (simp only [mSingle]; rw [if_neg hn1, if_neg hn2, if_pos ⟨h1, h2⟩];
       norm_num)
  · intro q h1 h2
    have hn1 : ¬(piQ * (7/40) ≤ q ∧ q ≤ piQ * (13/40)) := by
      rintro ⟨-, hc⟩
      linarith [hpi, h1, hc]
    have hn2 : ¬(piQ * (27/40) ≤ q ∧ q ≤ piQ * (33/40)) := by
      rintro ⟨-, hc⟩
      linarith [hpi, h1, hc]
    have hn3 : ¬(piQ * (47/40) ≤ q ∧ q ≤ piQ * (53/40)) := by
      rintro ⟨-, hc⟩
      linarith [hpi, h1, hc]
    constructor <;>
      (simp only [mSingle];
       rw [if_neg hn1, if_neg hn2, if_neg hn3, if_pos ⟨h1, h2⟩]; norm_num)

set_option maxHeartbeats 1600000 in
/-- C9: in `radar V8.tsx`, a group of exactly one item takes the single-item
branch — the polar angle is the sector midpoint plus a jitter of at most
`0.15` of a half-quadrant — and, assuming the true trigonometric facts
(`SinCosBounded`, `UnitCircle` and the four-window sign bounds `TrigWindow`),
the final output point lies strictly inside the open angular sector of its
quadrant (in sign form about the centre `(300, 300)`) and strictly inside the
open radial band `(previous ring radius, ring radius)` of its ring. -/
theorem C9_single_item (m : MathOps) (hb : SinCosBounded m)
    (hu : UnitCircle m) (hw : TrigWindow m) (item : Tech) (q : V8.QuadCfg)
    (ri : ℕ) (ring : V8.RingCfg)
    (hq : V8.findQuadrant item = some q)
    (hr : V8.findRing item = some (ri, ring)) :
    |(V8.polarPosition m item [item] q ri ring).1
        - (q.startAngle * piQ / 180 + piQ / 4)| ≤ piQ / 2 * (3/20)
    ∧ sectorStrict q.key (V8.calculatePosition m item [item])
    ∧ V8.rawInnerRadius ri ^ 2
        < distSq (V8.calculatePosition m item [item]) ⟨300, 300⟩
    ∧ distSq (V8.calculatePosition m item [item]) ⟨300, 300⟩
        < ring.radius ^ 2 := by
  have hpi : (0:ℚ) < piQ := by norm_num [piQ]
  have hrange : q.endAngle = q.startAngle + 90 := by
    have hqmem := List.mem_of_find?_eq_some hq
    simp [V8.quadrants] at hqmem
    rcases hqmem with h | h | h | h <;> (subst h; norm_num)
  have hs1 := abs_le.mp (hb.1 ((generateSeed item.name : ℚ) * 0.1))
  have hs2 := abs_le.mp (hb.1 ((generateSeed item.name : ℚ) * 0.2))
  have hs3 := abs_le.mp (hb.1 ((generateSeed item.name : ℚ) * 0.3))
  have hcb := abs_le.mp (hb.2 ((V8.polarPosition m item [item] q ri ring).1))
  have hsb := abs_le.mp (hb.1 ((V8.polarPosition m item [item] q ri ring).1))
  have hcond : ¬((q.startAngle + 90) * piQ / 180
      - q.startAngle * piQ / 180 ≤ 0) := by
    push_neg
    linarith [hpi]
  have hrw : (q.startAngle + 90) * piQ / 180 - q.startAngle * piQ / 180
      = piQ / 2 := by ring
  have hang : (V8.polarPosition m item [item] q ri ring).1
      = q.startAngle * piQ / 180 + piQ / 2 * 0.5
        + (m.sin ((generateSeed item.name : ℚ) * 0.1) * 0.5 + 0.5 - 0.5)
          * (piQ / 2) * 0.3 := by
    unfold V8.polarPosition
    dsimp only
    rw [hrange, if_neg hcond, hrw,
      if_pos (show ([item] : List Tech).length = 1 from rfl)]
  have hθlo : q.startAngle * piQ / 180 + piQ * (7/40)
      ≤ (V8.polarPosition m item [item] q ri ring).1 := by
    rw [hang]
    linarith [mul_nonneg (show (0:ℚ) ≤ 1
        + m.sin ((generateSeed item.name : ℚ) * 0.1) by linarith [hs1.1])
      hpi.le, hpi.le]
  have hθhi : (V8.polarPosition m item [item] q ri ring).1
      ≤ q.startAngle * piQ / 180 + piQ * (13/40) := by
    rw [hang]
    linarith [mul_nonneg (show (0:ℚ) ≤ 1
        - m.sin ((generateSeed item.name : ℚ) * 0.1) by linarith [hs1.2])
      hpi.le, hpi.le]
  have hringle : V8.minRadiusOf ri + 3 ≤ ring.radius - 15 - 3
      ∧ 25 ≤ V8.minRadiusOf ri := by
    have hrmem := List.mem_of_find?_eq_some hr
    simp [V8.rings, V8.maxRadius, List.enum, List.enumFrom] at hrmem
    rcases hrmem with ⟨h1, h2⟩ | ⟨h1, h2⟩ | ⟨h1, h2⟩ | ⟨h1, h2⟩ <;>
      (subst h1; subst h2;
       norm_num [V8.minRadiusOf, V8.rings, V8.maxRadius])
  have hrad2 : V8.minRadiusOf ri + 3
        ≤ (V8.polarPosition m item [item] q ri ring).2
      ∧ (V8.polarPosition m item [item] q ri ring).2
        ≤ ring.radius - 15 - 3 := by
    unfold V8.polarPosition
    dsimp only
    exact clampMem _ _ _ hringle.1
  have hr28 : 28 ≤ (V8.polarPosition m item [item] q ri ring).2 := by
    linarith [hrad2.1, hringle.2]
  have hpoint : V8.calculatePosition m item [item]
      = ⟨300 + (V8.polarPosition m item [item] q ri ring).2
            * m.cos ((V8.polarPosition m item [item] q ri ring).1)
          + (m.sin ((generateSeed item.name : ℚ) * 0.2) * 0.5 + 0.5 - 0.5) * 8,
         300 + (V8.polarPosition m item [item] q ri ring).2
            * m.sin ((V8.polarPosition m item [item] q ri ring).1)
          + (m.sin ((generateSeed item.name : ℚ) * 0.3) * 0.5 + 0.5 - 0.5) * 8⟩
      := by
    unfold V8.calculatePosition
    rw [hq, hr]
  have hkey : distSq (V8.calculatePosition m item [item]) ⟨300, 300⟩
      = (V8.polarPosition m item [item] q ri ring).2 ^ 2
          * (m.cos ((V8.polarPosition m item [item] q ri ring).1) ^ 2
            + m.sin ((V8.polarPosition m item [item] q ri ring).1) ^ 2)
        + 2 * (V8.polarPosition m item [item] q ri ring).2
          * (m.cos ((V8.polarPosition m item [item] q ri ring).1)
              * (m.sin ((generateSeed item.name : ℚ) * 0.2) * 4)
            + m.sin ((V8.polarPosition m item [item] q ri ring).1)
              * (m.sin ((generateSeed item.name : ℚ) * 0.3) * 4))
        + ((m.sin ((generateSeed item.name : ℚ) * 0.2) * 4) ^ 2
          + (m.sin ((generateSeed item.name : ℚ) * 0.3) * 4) ^ 2) := by
    rw [hpoint]
    unfold distSq
    dsimp only
    ring
  rw [hu ((V8.polarPosition m item [item] q ri ring).1), mul_one] at hkey
  have hband := bandBounds
    ((V8.polarPosition m item [item] q ri ring).2)
    (m.cos ((V8.polarPosition m item [item] q ri ring).1))
    (m.sin ((V8.polarPosition m item [item] q ri ring).1))
    (m.sin ((generateSeed item.name : ℚ) * 0.2))
    (m.sin ((generateSeed item.name : ℚ) * 0.3))
    (V8.minRadiusOf ri + 3) (ring.radius - 15 - 3)
    hcb.1 hcb.2 hsb.1 hsb.2 hs2.1 hs2.2 hs3.1 hs3.2
    hrad2.1 hrad2.2 (by linarith [hringle.2])
  have hgap1 : V8.rawInnerRadius ri ^ 2
      < (V8.minRadiusOf ri + 3) ^ 2 - 16 * (V8.minRadiusOf ri + 3) := by
    have hrmem := List.mem_of_find?_eq_some hr
    simp [V8.rings, V8.maxRadius, List.enum, List.enumFrom] at hrmem
    rcases hrmem with ⟨h1, h2⟩ | ⟨h1, h2⟩ | ⟨h1, h2⟩ | ⟨h1, h2⟩ <;>
      (subst h1;
       norm_num [V8.minRadiusOf, V8.rawInnerRadius, V8.rings, V8.maxRadius])
  have hgap2 : (ring.radius - 15 - 3) ^ 2 + 16 * (ring.radius - 15 - 3) + 32
      < ring.radius ^ 2 := by
    have hrmem := List.mem_of_find?_eq_some hr
    simp [V8.rings, V8.maxRadius, List.enum, List.enumFrom] at hrmem
    rcases hrmem with ⟨h1, h2⟩ | ⟨h1, h2⟩ | ⟨h1, h2⟩ | ⟨h1, h2⟩ <;>
      (subst h2; norm_num [V8.maxRadius])
  refine ⟨?_, ?_, ?_, ?_⟩
  · rw [abs_le]
    constructor <;> linarith [hθlo, hθhi]
  · have hqmem := List.mem_of_find?_eq_some hq
    simp [V8.quadrants] at hqmem
    rcases hqmem with h | h | h | h
    · subst h
      have hl := hθlo
      have hh := hθhi
      norm_num at hl hh
      have hwin := hw.2.2.1 ((V8.polarPosition m item [item]
          ⟨"Techniques", "techniques", 180, 270⟩ ri ring).1)
        (by linarith [hl]) (by linarith [hh])
      rw [hpoint, sectorStrict_techniques]
      dsimp only
      exact ⟨(sectorSign _ _ _ hr28 hs2.1 hs2.2).1 hwin.1,
        (sectorSign _ _ _ hr28 hs3.1 hs3.2).1 hwin.2⟩
    · subst h
      have hl := hθlo
      have hh := hθhi
      norm_num at hl hh
      have hwin := hw.2.2.2 ((V8.polarPosition m item [item]
          ⟨"Tools", "tools", 270, 360⟩ ri ring).1)
        (by linarith [hl]) (by linarith [hh])
      rw [hpoint, sectorStrict_tools]
      dsimp only
      exact ⟨(sectorSign _ _ _ hr28 hs2.1 hs2.2).2 hwin.1,
        (sectorSign _ _ _ hr28 hs3.1 hs3.2).1 hwin.2⟩
    · subst h
      have hl := hθlo
      have hh := hθhi
      norm_num at hl hh
      have hwin := hw.2.1 ((V8.polarPosition m item [item]
          ⟨"Platforms", "platforms", 90, 180⟩ ri ring).1)
        (by linarith [hl]) (by linarith [hh])
      rw [hpoint, sectorStrict_platforms]
      dsimp only
      exact ⟨(sectorSign _ _ _ hr28 hs2.1 hs2.2).1 hwin.1,
        (sectorSign _ _ _ hr28 hs3.1 hs3.2).2 hwin.2⟩
    · subst h
      have hl := hθlo
      have hh := hθhi
      norm_num at hl hh
      have hwin := hw.1 ((V8.polarPosition m item [item]
          ⟨"Languages & Frameworks", "languagesframeworks", 0, 90⟩ ri ring).1)
        (by linarith [hl]) (by linarith [hh])
      rw [hpoint, sectorStrict_lf]
      dsimp only
      exact ⟨(sectorSign _ _ _ hr28 hs2.1 hs2.2).2 hwin.1,
        (sectorSign _ _ _ hr28 hs3.1 hs3.2).2 hwin.2⟩
  · rw [hkey]
    exact lt_of_lt_of_le hgap1 hband.1
  · rw [hkey]
    exact lt_of_le_of_lt hband.2 hgap2

/-- Witness for C9: the single item `"B"` of `Languages & Frameworks / Adopt`
under the concrete interpretation `mSingle` lands strictly inside its
sector. -/
theorem C9_witness :
    sectorStrict "languagesframeworks"
      (V8.calculatePosition mSingle ceSingleItem [ceSingleItem]) :=
  (C9_single_item mSingle sinCosBounded_mSingle unitCircle_mSingle
    trigWindow_mSingle ceSingleItem
    ⟨"Languages & Frameworks", "languagesframeworks", 0, 90⟩ 0
    ⟨"Adopt", "ADOPT", V8.maxRadius * 0.25⟩ rfl rfl).2.1

/-! ## C7 — force-relaxation clamping -/

theorem rsOne : ratSqrt 1 = 1 := by
  have := ratSqrt_sq 1 (by norm_num)
  norm_num at this
  exact this

theorem rs19881 : ratSqrt 19881 = 141 := by
  have := ratSqrt_sq 141 (by norm_num)
  norm_num at this
  exact this

theorem rs3600 : ratSqrt 3600 = 60 := by
  have := ratSqrt_sq 60 (by norm_num)
  norm_num at this
  exact this

theorem sinCosBounded_mClamp : SinCosBounded mClamp := by
  constructor <;> intro q <;>
    (simp only [mClamp]; split_ifs <;> rw [abs_le] <;> constructor <;>
      norm_num)

theorem atan2Facts_mClamp : Atan2Facts mClamp := by
  refine ⟨?_, ?_, ?_, ?_, ?_, ?_, ?_, ?_⟩
  · intro y x hx hy
    simp only [mClamp, atan2Model]
    rw [if_pos ⟨hx, hy⟩]
    norm_num
  · intro y x hx hy
    simp only [mClamp, atan2Model]
    rw [if_neg (by rintro ⟨h, -⟩; linarith), if_pos ⟨hx, hy⟩]
    norm_num
  · intro y x hx hy
    simp only [mClamp, atan2Model]
    rw [if_neg (by rintro ⟨-, h⟩; linarith), if_neg (by rintro ⟨-, h⟩; linarith),
      if_pos ⟨hx, hy⟩]
    norm_num
  · intro y x hx hy
    simp only [mClamp, atan2Model]
    rw [if_neg (by rintro ⟨-, h⟩; linarith), if_neg (by rintro ⟨h, -⟩; linarith),
      if_neg (by rintro ⟨h, -⟩; linarith), if_pos ⟨hx, hy⟩]
    norm_num
  · intro x hx
    simp only [mClamp, atan2Model]
    rw [if_neg (by rintro ⟨-, h⟩; linarith), if_neg (by rintro ⟨-, h⟩; linarith),
      if_neg (by rintro ⟨-, h⟩; linarith), if_neg (by rintro ⟨-, h⟩; linarith),
      if_pos hx]
  · intro x hx
    simp only [mClamp, atan2Model]
    rw [if_neg (by rintro ⟨h, -⟩; linarith), if_neg (by rintro ⟨-, h⟩; linarith),
      if_neg (by rintro ⟨-, h⟩; linarith), if_neg (by rintro ⟨h, -⟩; linarith),
      if_neg (by intro h; linarith), if_pos hx]
    norm_num
  · intro y hy
    simp only [mClamp, atan2Model]
    rw [if_neg (by rintro ⟨h, -⟩; linarith), if_neg (by rintro ⟨h, -⟩; linarith),
      if_neg (by rintro ⟨h, -⟩; linarith), if_neg (by rintro ⟨h, -⟩; linarith),
      if_neg (by intro h; linarith), if_neg (by intro h; linarith),
      if_pos hy]
    norm_num
  · intro y hy
    simp only [mClamp, atan2Model]
    rw [if_neg (by rintro ⟨h, -⟩; linarith), if_neg (by rintro ⟨h, -⟩; linarith),
      if_neg (by rintro ⟨h, -⟩; linarith), if_neg (by rintro ⟨h, -⟩; linarith),
      if_neg (by intro h; linarith), if_neg (by intro h; linarith),
      if_neg (by intro h; linarith), if_pos hy]
    norm_num

theorem sfClamp1 :
    Spiral.sumForces mClamp 32 3 ceClampExisting ⟨48, 64⟩
      = (-243/5, -324/5) := by
  unfold ceClampExisting
  rw [sumForces_replicate mClamp 32 3 ⟨48 + 3/5, 64 + 4/5⟩ ⟨48, 64⟩
    (-9/5) (-12/5) (by intro f; norm_num [mClamp, rsOne])]
  norm_num

theorem stepClamp1 :
    Spiral.emergencyStep mClamp 60 70 ceClampExisting ⟨48, 64⟩
      = ⟨-36, -48⟩ := by
  unfold Spiral.emergencyStep
  rw [sfClamp1]
  norm_num [Spiral.constrainToRing, mClamp, rsOne]

theorem stepClampFix :
    Spiral.emergencyStep mClamp 60 70 ceClampExisting ⟨-36, -48⟩
      = ⟨-36, -48⟩ := by
  have hsf : Spiral.sumForces mClamp 32 3 ceClampExisting ⟨-36, -48⟩
      = (0, 0) := by
    unfold ceClampExisting
    rw [sumForces_replicate mClamp 32 3 ⟨48 + 3/5, 64 + 4/5⟩ ⟨-36, -48⟩ 0 0
      (by intro f; norm_num [mClamp, rs19881])]
    norm_num
  unfold Spiral.emergencyStep
  rw [hsf]
  norm_num [Spiral.constrainToRing, mClamp, rs3600]

theorem emergClamp :
    Spiral.findEmergencyPosition mClamp 100 platformsQC ceClampExisting
      = ⟨-36, -48⟩ := by
  have hmain : Spiral.findEmergencyPosition mClamp 100 platformsQC
        ceClampExisting
      = Spiral.forceIter (Spiral.emergencyStep mClamp 60 70 ceClampExisting)
          30 ⟨48, 64⟩ := by
    unfold Spiral.findEmergencyPosition
    norm_num [platformsQC, mClamp, piQ]
  rw [hmain, show (30:ℕ) = 29 + 1 from rfl, Spiral.forceIter, stepClamp1]
  exact forceIter_fixed _ _ stepClampFix 29

/-- After the quadrant constraint of one `findForceBasedPosition` iteration,
the point either measures inside `[startAngle, endAngle]` or was snapped onto
the mid-angle ray. -/
theorem snapPost (m : MathOps) (sa ea mid : ℚ) (Q : Point) :
    inSectorMeasured m sa ea
        (if (if m.atan2 Q.y Q.x < 0 then m.atan2 Q.y Q.x + 2 * piQ
              else m.atan2 Q.y Q.x) < sa
            ∨ (if m.atan2 Q.y Q.x < 0 then m.atan2 Q.y Q.x + 2 * piQ
              else m.atan2 Q.y Q.x) > ea then
          (⟨m.cos mid * m.sqrt (Q.x * Q.x + Q.y * Q.y),
            m.sin mid * m.sqrt (Q.x * Q.x + Q.y * Q.y)⟩ : Point)
         else Q)
    ∨ ∃ rr : ℚ,
        (if (if m.atan2 Q.y Q.x < 0 then m.atan2 Q.y Q.x + 2 * piQ
              else m.atan2 Q.y Q.x) < sa
            ∨ (if m.atan2 Q.y Q.x < 0 then m.atan2 Q.y Q.x + 2 * piQ
              else m.atan2 Q.y Q.x) > ea then
          (⟨m.cos mid * m.sqrt (Q.x * Q.x + Q.y * Q.y),
            m.sin mid * m.sqrt (Q.x * Q.x + Q.y * Q.y)⟩ : Point)
         else Q) = ⟨m.cos mid * rr, m.sin mid * rr⟩ := by
  by_cases hcond : (if m.atan2 Q.y Q.x < 0 then m.atan2 Q.y Q.x + 2 * piQ
      else m.atan2 Q.y Q.x) < sa
    ∨ (if m.atan2 Q.y Q.x < 0 then m.atan2 Q.y Q.x + 2 * piQ
      else m.atan2 Q.y Q.x) > ea
  · right
    rw [if_pos hcond]
    exact ⟨_, rfl⟩
  · left
    rw [if_neg hcond]
    push_neg at hcond
    unfold inSectorMeasured normalizedAngleOf
    dsimp only
    exact ⟨hcond.1, hcond.2⟩

theorem forceStep_post (m : MathOps) (minR maxR sa ea mid md fstr : ℚ)
    (existing : List Point) (p : Point) :
    inSectorMeasured m sa ea
        (Spiral.forceStep m minR maxR sa ea mid md fstr existing p)
    ∨ ∃ rr : ℚ, Spiral.forceStep m minR maxR sa ea mid md fstr existing p
        = ⟨m.cos mid * rr, m.sin mid * rr⟩ := by
  unfold Spiral.forceStep
  dsimp only
  exact snapPost m sa ea mid _

theorem forceIter_post (P : Point → Prop) (step : Point → Point)
    (hstep : ∀ p, P (step p)) :
    ∀ (n : ℕ) (p : Point), 0 < n → P (Spiral.forceIter step n p) := by
  intro n
  induction n with
  | zero =>
    intro p h
    exact absurd h (by omega)
  | succ k ih =>
    intro p h
    rw [Spiral.forceIter]
    cases k with
    | zero => exact hstep p
    | succ k2 => exact ih (step p) (Nat.succ_pos k2)

/-- C7 (amended): `findForceBasedPosition` does constrain the quadrant after
every iteration — its result either measures inside `[startAngle, endAngle]`
by the code's own `atan2` test or has been snapped onto the mid-angle ray —
but the claim is false for `findEmergencyPosition`, which re-applies only the
ring constraint and no quadrant constraint at all (see the counterexample). -/
theorem C7_force_clamped (m : MathOps) (ringRadius : ℚ)
    (qc : Spiral.QuadCfg) (existing : List Point) (minDistance : ℚ) :
    inSectorMeasured m qc.startAngle qc.endAngle
        (Spiral.findForceBasedPosition m ringRadius qc existing minDistance)
    ∨ ∃ rr : ℚ,
        Spiral.findForceBasedPosition m ringRadius qc existing minDistance
          = ⟨m.cos ((qc.startAngle + qc.endAngle) / 2) * rr,
             m.sin ((qc.startAngle + qc.endAngle) / 2) * rr⟩ := by
  unfold Spiral.findForceBasedPosition
  dsimp only
  exact forceIter_post
    (fun pt => inSectorMeasured m qc.startAngle qc.endAngle pt
      ∨ ∃ rr : ℚ, pt = ⟨m.cos ((qc.startAngle + qc.endAngle) / 2) * rr,
          m.sin ((qc.startAngle + qc.endAngle) / 2) * rr⟩)
    (Spiral.forceStep m (max 60 (ringRadius - 45)) (ringRadius - 30)
      qc.startAngle qc.endAngle ((qc.startAngle + qc.endAngle) / 2)
      minDistance 5 existing)
    (fun pp => forceStep_post m (max 60 (ringRadius - 45)) (ringRadius - 30)
      qc.startAngle qc.endAngle ((qc.startAngle + qc.endAngle) / 2)
      minDistance 5 existing pp)
    50 _ (by norm_num)

/-- Counterexample for C7 as stated: under an interpretation satisfying every
stated fact about the real `Math` functions, `findEmergencyPosition` for the
platforms quadrant (sector `[0.15, π/2 - 0.15]`) returns the point
`(-36, -48)` — in the third quadrant of the plane, far outside the assigned
sector by the code's own angle measurement — because this fallback re-applies
only the ring constraint after each iteration, never the quadrant
constraint. -/
theorem C7_counterexample :
    Spiral.quadrantMap "platforms" = some platformsQC
    ∧ SinCosBounded mClamp ∧ SqrtFacts mClamp ∧ Atan2Facts mClamp
    ∧ (90:ℚ) ≤ 100
    ∧ Spiral.findEmergencyPosition mClamp 100 platformsQC ceClampExisting
        = ⟨-36, -48⟩
    ∧ ¬ inSectorMeasured mClamp platformsQC.startAngle platformsQC.endAngle
        ⟨-36, -48⟩ := by
  have hsq : SqrtFacts mClamp := sqrtFacts_ratSqrt _ _ _
  refine ⟨rfl, sinCosBounded_mClamp, hsq, atan2Facts_mClamp, by norm_num,
    emergClamp, ?_⟩
  unfold inSectorMeasured normalizedAngleOf
  norm_num [mClamp, atan2Model, platformsQC, piQ]

/-! ## The spiral grid under a constant random stream (for C1 and C4) -/

/-- Under a constant `Math.random()` stream every attempt draws the same
candidate, so once a candidate is accepted the remaining attempts never
improve on it. -/
theorem gridTryLoop_keep (m : MathOps) (c : ℚ) (qc : Spiral.QuadCfg)
    (mr mx aa rsp asp rst : ℚ) (others : List Point) (i count : ℕ)
    (best : Option Point) :
    ∀ (fuel ctr : ℕ),
      Spiral.gridTryLoop m (fun _ => c) qc mr mx aa rsp asp rst others i count
          fuel ctr best
          (Spiral.minDistSqTo (Spiral.gridAttempt m (fun _ => c) 0 qc mr mx aa
            rsp asp rst i count) others)
        = (best, ctr + 2 * fuel) := by
  intro fuel
  induction fuel with
  | zero => intro ctr; rfl
  | succ f ih =>
    intro ctr
    unfold Spiral.gridTryLoop
    dsimp only
    rw [show Spiral.gridAttempt m (fun _ => c) ctr qc mr mx aa rsp asp rst
        i count
      = Spiral.gridAttempt m (fun _ => c) 0 qc mr mx aa rsp asp rst i count
      from rfl]
    rw [if_neg (by rintro ⟨-, h⟩; exact absurd h (lt_irrefl _))]
    rw [ih (ctr + 2)]
    rw [Prod.mk.injEq]
    exact ⟨rfl, by omega⟩

/-- Under a constant random stream, a candidate clearing the `32`-pixel
threshold is accepted on the first attempt and survives the remaining
attempts. -/
theorem gridTryLoop_accept (m : MathOps) (c : ℚ) (qc : Spiral.QuadCfg)
    (mr mx aa rsp asp rst : ℚ) (others : List Point) (i count : ℕ)
    (hge : Spiral.minDistSqTo (Spiral.gridAttempt m (fun _ => c) 0 qc mr mx aa
        rsp asp rst i count) others ≥ 32 ^ 2)
    (hpos : Spiral.minDistSqTo (Spiral.gridAttempt m (fun _ => c) 0 qc mr mx
        aa rsp asp rst i count) others > 0) :
    ∀ (fuel ctr : ℕ),
      Spiral.gridTryLoop m (fun _ => c) qc mr mx aa rsp asp rst others i count
          (fuel + 1) ctr none 0
        = (some (Spiral.gridAttempt m (fun _ => c) 0 qc mr mx aa rsp asp rst
            i count), ctr + 2 * (fuel + 1)) := by
  intro fuel ctr
  unfold Spiral.gridTryLoop
  dsimp only
  rw [show Spiral.gridAttempt m (fun _ => c) ctr qc mr mx aa rsp asp rst
      i count
    = Spiral.gridAttempt m (fun _ => c) 0 qc mr mx aa rsp asp rst i count
    from rfl]
  rw [if_pos ⟨hge, hpos⟩]
  rw [gridTryLoop_keep]
  rw [Prod.mk.injEq]
  exact ⟨rfl, by omega⟩

/-- The derived grid parameters for a two-item tools group on a ring of
radius `100`. -/
theorem spiralGridParams : ∀ (rng : ℕ → ℚ) (existing : List Point) (ctr : ℕ),
    Spiral.generateGridPositions mSpiral rng 100 qcTools 2 existing ctr
      = Spiral.gridItems mSpiral rng 100 qcTools 60 70 ceArcTools 10
          ceStepTools 5 existing 2 0 2 [] ctr := by
  intro rng existing ctr
  unfold Spiral.generateGridPositions
  norm_num [qcTools, ceArcTools, ceStepTools, piQ]

theorem gridA00 : ∀ ctr, Spiral.gridAttempt mSpiral (fun _ => 0) ctr qcTools
    60 70 ceArcTools 10 ceStepTools 5 0 2 = ceP0 := by
  intro ctr
  unfold Spiral.gridAttempt
  norm_num [qcTools, ceArcTools, ceStepTools, mSpiral, ceAngle0, ceAngle1,
    ceAngle2, ceP0, piQ, Point.mk.injEq]

theorem gridA09 : ∀ ctr, Spiral.gridAttempt mSpiral (fun _ => 9/10) ctr
    qcTools 60 70 ceArcTools 10 ceStepTools 5 0 2 = ceP0 := by
  intro ctr
  unfold Spiral.gridAttempt
  norm_num [qcTools, ceArcTools, ceStepTools, mSpiral, ceAngle0, ceAngle1,
    ceAngle2, ceP0, piQ, Point.mk.injEq]

theorem gridA10 : ∀ ctr, Spiral.gridAttempt mSpiral (fun _ => 0) ctr qcTools
    60 70 ceArcTools 10 ceStepTools 5 1 2 = ceP1a := by
  intro ctr
  unfold Spiral.gridAttempt
  norm_num [qcTools, ceArcTools, ceStepTools, mSpiral, ceAngle0, ceAngle1,
    ceAngle2, ceP1a, piQ, Point.mk.injEq]

theorem gridA19 : ∀ ctr, Spiral.gridAttempt mSpiral (fun _ => 9/10) ctr
    qcTools 60 70 ceArcTools 10 ceStepTools 5 1 2 = ceP1b := by
  intro ctr
  unfold Spiral.gridAttempt
  norm_num [qcTools, ceArcTools, ceStepTools, mSpiral, ceAngle0, ceAngle1,
    ceAngle2, ceP1b, piQ, Point.mk.injEq]

/-- The grid positions drawn for the two-item tools group under the all-zeros
random stream. -/
theorem spiralRun0 : Spiral.generateGridPositions mSpiral (fun _ => 0) 100
    qcTools 2 [] 0 = ([ceP0, ceP1a], 80) := by
  rw [spiralGridParams]
  unfold Spiral.gridItems
  dsimp only
  rw [show (20:ℕ) = 19 + 1 from rfl]
  rw [gridTryLoop_accept mSpiral 0 qcTools 60 70 ceArcTools 10 ceStepTools 5
    ([] ++ []) 0 2
    (by rw [gridA00]; norm_num [Spiral.minDistSqTo, jsInfinity])
    (by rw [gridA00]; norm_num [Spiral.minDistSqTo, jsInfinity])]
  dsimp only
  rw [gridA00]
  unfold Spiral.gridItems
  dsimp only
  rw [show (20:ℕ) = 19 + 1 from rfl]
  rw [gridTryLoop_accept mSpiral 0 qcTools 60 70 ceArcTools 10 ceStepTools 5
    ([] ++ ([] ++ [ceP0])) 1 2
    (by rw [gridA10]
        norm_num [Spiral.minDistSqTo, distSq, ceP0, ceP1a, jsInfinity])
    (by rw [gridA10]
        norm_num [Spiral.minDistSqTo, distSq, ceP0, ceP1a, jsInfinity])]
  dsimp only
  rw [gridA10]
  unfold Spiral.gridItems
  norm_num

/-- The grid positions drawn for the same group under a constant-`9/10`
random stream: the second item lands elsewhere. -/
theorem spiralRun9 : Spiral.generateGridPositions mSpiral (fun _ => 9/10) 100
    qcTools 2 [] 0 = ([ceP0, ceP1b], 80) := by
  rw [spiralGridParams]
  unfold Spiral.gridItems
  dsimp only
  rw [show (20:ℕ) = 19 + 1 from rfl]
  rw [gridTryLoop_accept mSpiral (9/10) qcTools 60 70 ceArcTools 10
    ceStepTools 5 ([] ++ []) 0 2
    (by rw [gridA09]; norm_num [Spiral.minDistSqTo, jsInfinity])
    (by rw [gridA09]; norm_num [Spiral.minDistSqTo, jsInfinity])]
  dsimp only
  rw [gridA09]
  unfold Spiral.gridItems
  dsimp only
  rw [show (20:ℕ) = 19 + 1 from rfl]
  rw [gridTryLoop_accept mSpiral (9/10) qcTools 60 70 ceArcTools 10
    ceStepTools 5 ([] ++ ([] ++ [ceP0])) 1 2
    (by rw [gridA19]
        norm_num [Spiral.minDistSqTo, distSq, ceP0, ceP1b, jsInfinity])
    (by rw [gridA19]
        norm_num [Spiral.minDistSqTo, distSq, ceP0, ceP1b, jsInfinity])]
  dsimp only
  rw [gridA19]
  unfold Spiral.gridItems
  norm_num

theorem spiralOut0 :
    Spiral.calculateTechnologyPositions mSpiral (fun _ => 0) ceSpiralTechs
      ceSpiralCfg
      = [⟨"a", "Tools", "ADOPT", "", 1, 75/4, -291/4⟩,
         ⟨"b", "Tools", "ADOPT", "", 2, 195/4, -57⟩] := by
  unfold Spiral.calculateTechnologyPositions
  rw [show Spiral.groupTechs ceSpiralTechs
      = [("tools", [("adopt", [⟨"a", "Tools", "ADOPT", ""⟩,
            ⟨"b", "Tools", "ADOPT", ""⟩])])] from rfl]
  simp only [Spiral.processQuadGroups, Spiral.processRingGroups]
  rw [show ceSpiralCfg.find? (fun r => jsToLower r.name == "adopt")
      = some ⟨"ADOPT", 100⟩ from rfl]
  rw [show Spiral.quadrantMap "tools" = some qcTools from rfl]
  dsimp only
  rw [show ([⟨"a", "Tools", "ADOPT", ""⟩,
      ⟨"b", "Tools", "ADOPT", ""⟩] : List Tech).length = 2 from rfl]
  rw [spiralRun0]
  dsimp only
  simp only [Spiral.placeGroup]
  norm_num [ceP0, ceP1a, List.get?]

theorem spiralOut9 :
    Spiral.calculateTechnologyPositions mSpiral (fun _ => 9/10) ceSpiralTechs
      ceSpiralCfg
      = [⟨"a", "Tools", "ADOPT", "", 1, 75/4, -291/4⟩,
         ⟨"b", "Tools", "ADOPT", "", 2, 225/4, -99/2⟩] := by
  unfold Spiral.calculateTechnologyPositions
  rw [show Spiral.groupTechs ceSpiralTechs
      = [("tools", [("adopt", [⟨"a", "Tools", "ADOPT", ""⟩,
            ⟨"b", "Tools", "ADOPT", ""⟩])])] from rfl]
  simp only [Spiral.processQuadGroups, Spiral.processRingGroups]
  rw [show ceSpiralCfg.find? (fun r => jsToLower r.name == "adopt")
      = some ⟨"ADOPT", 100⟩ from rfl]
  rw [show Spiral.quadrantMap "tools" = some qcTools from rfl]
  dsimp only
  rw [show ([⟨"a", "Tools", "ADOPT", ""⟩,
      ⟨"b", "Tools", "ADOPT", ""⟩] : List Tech).length = 2 from rfl]
  rw [spiralRun9]
  dsimp only
  simp only [Spiral.placeGroup]
  norm_num [ceP0, ceP1b, List.get?]

/-- Counterexample for C1 as stated: part_000's spiral layout consumes
`Math.random()` in `generateGridPositions`, so two runs of the full layout on
the same two-item input and configuration — differing only in the hidden
random stream (all zeros versus all `9/10`) — place the second item at
different coordinates. -/
theorem C1_counterexample :
    Spiral.calculateTechnologyPositions mSpiral (fun _ => 0) ceSpiralTechs
      ceSpiralCfg
    ≠ Spiral.calculateTechnologyPositions mSpiral (fun _ => 9/10)
      ceSpiralTechs ceSpiralCfg := by
  rw [spiralOut0, spiralOut9]
  intro h
  have h2 := congrArg (fun l => (l.getD 1 ⟨"", "", "", "", 0, 0, 0⟩).x) h
  norm_num at h2

/-! ## C4 — order preservation counterexample -/

/-- The names of the techs a group placement emits are the group's techs in
group order, whatever the positions. -/
theorem placeGroup_names (m : MathOps) (rr : ℚ) (qc : Spiral.QuadCfg)
    (positions : List Point) :
    ∀ (techs : List Tech) (index : ℕ) (ap : List Point) (ic : ℕ),
      (Spiral.placeGroup m rr qc positions techs index ap ic).1.map
        (fun t => t.name) = techs.map (fun t => t.name) := by
  intro techs
  induction techs with
  | nil => intro index ap ic; rfl
  | cons t rest ih =>
    intro index ap ic
    unfold Spiral.placeGroup
    dsimp only
    rw [List.map_cons, List.map_cons, ih]

theorem processRingGroups_nil (m : MathOps) (rng : ℕ → ℚ)
    (config : List Spiral.RingEntry) (k : String) (X : List Point)
    (Y Z : ℕ) :
    Spiral.processRingGroups m rng config k [] X Y Z = ([], X, Y, Z) := rfl

/-- Counterexample for C4 as stated: the part_000 spiral orchestrator emits
groups in first-appearance key order, so the input `[a (Tools), b
(Techniques), c (Tools)]` comes out as `[a, c, b]` — not the input order —
and an item whose quadrant key resolves nowhere is dropped entirely, so the
output can also be shorter than the input. -/
theorem C4_counterexample :
    (Spiral.calculateTechnologyPositions mZero (fun _ => 0) ceOrderTechs
        ceSpiralCfg).map (fun t => t.name) = ["a", "c", "b"]
    ∧ ceOrderTechs.map (fun t => t.name) = ["a", "b", "c"]
    ∧ Spiral.calculateTechnologyPositions mZero (fun _ => 0) [ceUnknownTech]
        ceSpiralCfg = [] := by
  refine ⟨?_, rfl, rfl⟩
  unfold Spiral.calculateTechnologyPositions
  rw [show Spiral.groupTechs ceOrderTechs
      = [("tools", [("adopt", [⟨"a", "Tools", "ADOPT", ""⟩,
            ⟨"c", "Tools", "ADOPT", ""⟩])]),
         ("techniques", [("adopt", [⟨"b", "Techniques", "ADOPT", ""⟩])])]
    from rfl]
  simp only [Spiral.processQuadGroups, Spiral.processRingGroups]
  rw [show ceSpiralCfg.find? (fun r => jsToLower r.name == "adopt")
      = some ⟨"ADOPT", 100⟩ from rfl]
  rw [show Spiral.quadrantMap "tools" = some qcTools from rfl]
  rw [show Spiral.quadrantMap "techniques"
      = some ⟨piQ + 0.15, 3 * piQ / 2 - 0.15, 0⟩ from rfl]
  dsimp only
  simp only [List.map_append, placeGroup_names]
  rfl

end Radar
